import Mathlib

/-!
# comin-time-service: QR codes, attendance and timesheets

A shallow embedding of `internal/domain/models.go`,
`internal/repository/repository.go`, `internal/service/time_service.go`,
`internal/handler/time_handler.go`, `internal/middleware/error_handler.go`
and the access middlewares of `pkg/auth` and `pkg/organization`.

* Instants (`time.Time`) are integers: nanoseconds since the Go zero time
  (January 1, year 1, 00:00:00 UTC).  The zone of `time.Now()` is a separate
  input where the code reads it (`AddDate`), and the 64-bit second count of
  `time.Time` is modelled where the code computes with days (`AddDate`).
* `uuid.UUID` values are natural numbers, `uuid.Nil` is `0`.
* Go `error` values are the inductive `Error`.
* The service is written against the `TimeRepository` interface, as in the
  source; a service operation takes the store state and returns its result
  together with the store state it leaves behind.
* `timeRepository` is the repository of `repository.go` over its gorm
  handle: inserts with the column defaults of `models.go`, lookups of the
  first matching row, and `Updates` calls that gorm refuses because they
  carry no condition.  `memRepo` is the same repository over a data layer
  whose behaviour is a parameter.
* Every `time.Now()` call site of an operation is a separate input.
-/

namespace Comin

/-! ## Basic types -/

/-- Go `uuid.UUID`; `0` is `uuid.Nil`. -/
abbrev UUID := Nat

/-- Go `time.Time`: nanoseconds since the zero time, in UTC. -/
abbrev Time := Int

/-- Go `time.Duration`: nanoseconds. -/
abbrev Duration := Int

/-- Go `time.Hour`. -/
def Hour : Duration := 3600000000000

/-- Go `Time.IsZero`: the instant is the zero time. -/
def Time.IsZero (t : Time) : Bool := decide (t = 0)

/-- Go `Time.After`: `t` is strictly after `u`. -/
def Time.After (t u : Time) : Bool := decide (u < t)

/-- Go `Time.Truncate`: round `t` down to a multiple of `d` since the zero
time; `t` itself when `d <= 0`. -/
def Time.Truncate (t : Time) (d : Duration) : Time :=
  if d ≤ 0 then t else t - t % d

/-- Go `int64` arithmetic: the value of `x` in 64-bit two's complement, that
is the integer congruent to `x` modulo 2^64 between -2^63 and 2^63 - 1. -/
def int64 (x : Int) : Int :=
  (x + 9223372036854775808) % 18446744073709551616 - 9223372036854775808

/-- Go `unixToInternal`: the seconds from the zero time to the Unix epoch. -/
def unixToInternal : Int := 62135596800

/-- One answer of Go `Location.lookup`: the offset in seconds east of UTC in
force at a Unix second, and the Unix seconds `start <= sec < stop` between
which that offset is in force. -/
structure Zone where
  offset : Int
  start : Int
  stop : Int
deriving DecidableEq, Repr

/-- What `Time.Date` and `time.Date` read of a `*time.Location`: the zone in
force at each Unix second. -/
structure Location where
  lookup : Int → Zone

/-- Go `time.UTC`: offset 0 at every instant. -/
def UTC : Location :=
  { lookup := fun _ =>
      { offset := 0, start := -9223372036854775808, stop := 9223372036854775807 } }

/-- Go `Time.AddDate(0, 0, days)` for an instant `t` in the zone `loc`.
`AddDate` reads the calendar date and clock of `t` in `loc` and hands them,
with `day + days`, to `time.Date`, which recomposes them into a second count
in unsigned 64-bit arithmetic (so `days * 86400` seconds are added modulo
2^64), looks up the offset of `loc` at that reading and, when the reading
less the offset falls outside the zone found, at the corrected instant, and
subtracts it.  The nanoseconds within the second are kept. -/
def Time.AddDate (loc : Location) (t : Time) (days : Int) : Time :=
  let nsec : Int := t % 1000000000
  let unix : Int := t / 1000000000 - unixToInternal
  let wall : Int := unix + (loc.lookup unix).offset
  let unix1 : Int := int64 (wall + days * 86400)
  let zone : Zone := loc.lookup unix1
  let unix2 : Int :=
    if zone.offset ≠ 0 then
      let utc : Int := int64 (unix1 - zone.offset)
      let offset : Int :=
        if utc < zone.start ∨ utc ≥ zone.stop then (loc.lookup utc).offset else zone.offset
      int64 (unix1 - offset)
    else
      unix1
  int64 (unix2 + unixToInternal) * 1000000000 + nsec

/-- Go `error` values met by the service. -/
inductive Error where
  /-- A value made by `errors.New(text)`. -/
  | New (text : String)
  /-- The persistence layer found no row (`gorm.ErrRecordNotFound`). -/
  | RecordNotFound
  /-- Any other failure reported by the persistence layer. -/
  | Storage (text : String)
deriving DecidableEq, Repr

deriving instance DecidableEq for Except

/-! ## Data model (`internal/domain/models.go`) -/

/-- Go `domain.Base`. -/
structure Base where
  ID : UUID
  CreatedAt : Time
  UpdatedAt : Time
deriving DecidableEq, Repr

/-- Go `domain.Attendance`. -/
structure Attendance extends Base where
  OrganizationID : UUID
  EmployeeID : UUID
  CheckIn : Option Time
  CheckOut : Option Time
  Date : Time
  Status : String
  WorkMode : String
  Location : String
  DeviceInfo : String
deriving DecidableEq, Repr

/-- Go `domain.Timesheet`; `Hours` is a decimal number. -/
structure Timesheet extends Base where
  OrganizationID : UUID
  EmployeeID : UUID
  ProjectID : Option UUID
  TaskID : Option UUID
  Description : String
  Date : Time
  Hours : Rat
  Status : String
  Notes : String
  ApprovedBy : Option UUID
  ApprovedAt : Option Time
deriving DecidableEq, Repr

/-- Go `domain.QRCode`. -/
structure QRCode extends Base where
  OrganizationID : UUID
  EmployeeID : UUID
  Code : String
  ExpiryDate : Option Time
  IsActive : Bool
  LastUsed : Option Time
deriving DecidableEq, Repr

/-- Go `domain.CheckInRequest`. -/
structure CheckInRequest where
  QRCode : String
  Location : String
  DeviceInfo : String
  WorkMode : String
  Timestamp : Time
deriving DecidableEq, Repr

/-- Go `domain.CheckOutRequest`. -/
structure CheckOutRequest where
  QRCode : String
  Location : String
  DeviceInfo : String
  Timestamp : Time
deriving DecidableEq, Repr

/-- Go `domain.CreateTimesheetRequest`. -/
structure CreateTimesheetRequest where
  ProjectID : Option UUID
  TaskID : Option UUID
  Description : String
  Date : String
  Hours : Rat
  Notes : String
deriving DecidableEq, Repr

/-- Go `domain.GenerateQRRequest`; `ExpiryDays` is a Go `int`, an integer
between -2^63 and 2^63 - 1. -/
structure GenerateQRRequest where
  EmployeeID : UUID
  ExpiryDays : Int
deriving DecidableEq, Repr

def AttendanceStatusPresent : String := "present"
def AttendanceStatusAbsent : String := "absent"
def AttendanceStatusLate : String := "late"
def AttendanceStatusHalfDay : String := "half-day"

def WorkModeOffice : String := "office"
def WorkModeRemote : String := "remote"
def WorkModeHybrid : String := "hybrid"

def TimesheetStatusPending : String := "pending"
def TimesheetStatusApproved : String := "approved"
def TimesheetStatusRejected : String := "rejected"

/-! ## Repository interface (`internal/repository/repository.go`) -/

/-- Go `repository.TimeRepository`, over a store state `σ`.  A lookup reads
the state; a write returns the state it leaves, or an error and then leaves
the state as it was.  `Create*` also returns the record as the call leaves
it in the caller's struct (identity and timestamps filled in). -/
structure TimeRepository (σ : Type) where
  CreateAttendance : σ → Attendance → Except Error (Attendance × σ)
  GetAttendanceByDate : σ → UUID → Time → Except Error Attendance
  UpdateAttendance : σ → Attendance → Except Error σ
  CreateQRCode : σ → QRCode → Except Error (QRCode × σ)
  GetQRCode : σ → String → Except Error QRCode
  UpdateQRCode : σ → QRCode → Except Error σ
  CreateTimesheet : σ → Timesheet → Except Error (Timesheet × σ)
  GetTimesheet : σ → UUID → Except Error Timesheet
  UpdateTimesheet : σ → Timesheet → Except Error σ
  DeleteTimesheet : σ → UUID → Except Error σ

/-! ## Service (`internal/service/time_service.go`) -/

/-- The `time.Now()` readings of one `CheckIn` or `CheckOut` call, one per
call site. -/
structure Clock where
  /-- Reading taken in `ValidateQRCode` for the expiry test. -/
  validate : Time
  /-- Reading taken for the effective timestamp when the request has none. -/
  stamp : Time
  /-- Reading taken for `today`. -/
  today : Time
deriving DecidableEq, Repr

/-- Go `timeService.GenerateQRCode`.  `code` is the outcome of drawing 32
random bytes and encoding them (lines 51-56): the read error, or the
URL-safe base64 text.  `now` is the reading of `time.Now()` and `loc` its
zone, the local zone of the server. -/
def GenerateQRCode {σ : Type} (repo : TimeRepository σ) (code : Except Error String)
    (loc : Location) (now : Time) (orgID : UUID) (req : GenerateQRRequest) (s : σ) :
    Except Error QRCode × σ :=
  match code with
  | .error err => (.error err, s)
  | .ok code =>
    let expiryDate : Option Time :=
      if req.ExpiryDays > 0 then some (Time.AddDate loc now req.ExpiryDays) else none
    let qrCode : QRCode :=
      { ID := 0, CreatedAt := 0, UpdatedAt := 0,
        OrganizationID := orgID,
        EmployeeID := req.EmployeeID,
        Code := code,
        ExpiryDate := expiryDate,
        IsActive := true,
        LastUsed := none }
    match repo.CreateQRCode s qrCode with
    | .error err => (.error err, s)
    | .ok (qrCode, s1) => (.ok qrCode, s1)

/-- Go `timeService.ValidateQRCode`. -/
def ValidateQRCode {σ : Type} (repo : TimeRepository σ) (now : Time) (code : String)
    (s : σ) : Except Error QRCode × σ :=
  match repo.GetQRCode s code with
  | .error _ => (.error (.New "invalid QR code"), s)
  | .ok qrCode =>
    if !qrCode.IsActive then
      (.error (.New "QR code is inactive"), s)
    else if (match qrCode.ExpiryDate with
             | some expiry => Time.After now expiry
             | none => false) then
      (.error (.New "QR code has expired"), s)
    else
      (.ok qrCode, s)

/-- Go `timeService.CheckIn`. -/
def CheckIn {σ : Type} (repo : TimeRepository σ) (clk : Clock) (req : CheckInRequest)
    (s : σ) : Except Error Attendance × σ :=
  match ValidateQRCode repo clk.validate req.QRCode s with
  | (.error err, s0) => (.error err, s0)
  | (.ok qrCode, s0) =>
    let checkInTime : Time :=
      if Time.IsZero req.Timestamp then clk.stamp else req.Timestamp
    let today : Time := Time.Truncate clk.today (24 * Hour)
    if (match repo.GetAttendanceByDate s0 qrCode.EmployeeID today with
        | .ok attendance => attendance.CheckIn.isSome
        | .error _ => false) then
      (.error (.New "already checked in today"), s0)
    else
      let attendance : Attendance :=
        { ID := 0, CreatedAt := 0, UpdatedAt := 0,
          OrganizationID := qrCode.OrganizationID,
          EmployeeID := qrCode.EmployeeID,
          CheckIn := some checkInTime,
          CheckOut := none,
          Date := today,
          Status := AttendanceStatusPresent,
          WorkMode := req.WorkMode,
          Location := req.Location,
          DeviceInfo := req.DeviceInfo }
      match repo.CreateAttendance s0 attendance with
      | .error err => (.error err, s0)
      | .ok (attendance, s1) =>
        let qrCode : QRCode := { qrCode with LastUsed := some checkInTime }
        match repo.UpdateQRCode s1 qrCode with
        | .error _ => (.ok attendance, s1)
        | .ok s2 => (.ok attendance, s2)

/-- Go `timeService.CheckOut`. -/
def CheckOut {σ : Type} (repo : TimeRepository σ) (clk : Clock) (req : CheckOutRequest)
    (s : σ) : Except Error Attendance × σ :=
  match ValidateQRCode repo clk.validate req.QRCode s with
  | (.error err, s0) => (.error err, s0)
  | (.ok qrCode, s0) =>
    let checkOutTime : Time :=
      if Time.IsZero req.Timestamp then clk.stamp else req.Timestamp
    let today : Time := Time.Truncate clk.today (24 * Hour)
    match repo.GetAttendanceByDate s0 qrCode.EmployeeID today with
    | .error _ => (.error (.New "no check-in record found for today"), s0)
    | .ok attendance =>
      if attendance.CheckOut.isSome then
        (.error (.New "already checked out today"), s0)
      else
        let attendance : Attendance :=
          { attendance with
            CheckOut := some checkOutTime,
            Location := req.Location,
            DeviceInfo := req.DeviceInfo }
        match repo.UpdateAttendance s0 attendance with
        | .error err => (.error err, s0)
        | .ok s1 =>
          let qrCode : QRCode := { qrCode with LastUsed := some checkOutTime }
          match repo.UpdateQRCode s1 qrCode with
          | .error err => (.error err, s1)
          | .ok s2 => (.ok attendance, s2)

/-- Go `timeService.CreateTimesheet`.  The struct literal sets neither
status nor notes nor approver, so they are the zero values. -/
def CreateTimesheet {σ : Type} (repo : TimeRepository σ) (now : Time)
    (orgID employeeID : UUID) (req : CreateTimesheetRequest) (s : σ) :
    Except Error Timesheet × σ :=
  let today : Time := Time.Truncate now (24 * Hour)
  let timesheet : Timesheet :=
    { ID := 0, CreatedAt := 0, UpdatedAt := 0,
      OrganizationID := orgID,
      EmployeeID := employeeID,
      ProjectID := req.ProjectID,
      TaskID := req.TaskID,
      Description := req.Description,
      Date := today,
      Hours := req.Hours,
      Status := "",
      Notes := "",
      ApprovedBy := none,
      ApprovedAt := none }
  match repo.CreateTimesheet s timesheet with
  | .error err => (.error err, s)
  | .ok (timesheet, s1) => (.ok timesheet, s1)

/-- Go `timeService.GetTimesheet`. -/
def GetTimesheet {σ : Type} (repo : TimeRepository σ) (id : UUID) (s : σ) :
    Except Error Timesheet × σ :=
  (repo.GetTimesheet s id, s)

/-- Go `timeService.UpdateTimesheet`. -/
def UpdateTimesheet {σ : Type} (repo : TimeRepository σ) (now : Time) (id : UUID)
    (req : CreateTimesheetRequest) (s : σ) : Except Error Timesheet × σ :=
  let today : Time := Time.Truncate now (24 * Hour)
  match repo.GetTimesheet s id with
  | .error err => (.error err, s)
  | .ok timesheet =>
    let timesheet : Timesheet :=
      { timesheet with
        ProjectID := req.ProjectID,
        TaskID := req.TaskID,
        Description := req.Description,
        Date := today,
        Hours := req.Hours }
    match repo.UpdateTimesheet s timesheet with
    | .error err => (.error err, s)
    | .ok s1 => (.ok timesheet, s1)

/-- Go `timeService.DeleteTimesheet`. -/
def DeleteTimesheet {σ : Type} (repo : TimeRepository σ) (id : UUID) (s : σ) :
    Except Error Unit × σ :=
  match repo.DeleteTimesheet s id with
  | .error err => (.error err, s)
  | .ok s1 => (.ok (), s1)

/-- Go `timeService.ApproveTimesheet`; the Go function returns an `error`
only. -/
def ApproveTimesheet {σ : Type} (repo : TimeRepository σ) (now : Time)
    (id approverID : UUID) (s : σ) : Except Error Unit × σ :=
  let today : Time := Time.Truncate now (24 * Hour)
  match repo.GetTimesheet s id with
  | .error err => (.error err, s)
  | .ok timesheet =>
    let timesheet : Timesheet :=
      { timesheet with
        Status := TimesheetStatusApproved,
        ApprovedBy := some approverID,
        ApprovedAt := some today }
    match repo.UpdateTimesheet s timesheet with
    | .error err => (.error err, s)
    | .ok s1 => (.ok (), s1)

/-- Go `timeService.RejectTimesheet`; the Go function returns an `error`
only. -/
def RejectTimesheet {σ : Type} (repo : TimeRepository σ) (now : Time)
    (id approverID : UUID) (reason : String) (s : σ) : Except Error Unit × σ :=
  let today : Time := Time.Truncate now (24 * Hour)
  match repo.GetTimesheet s id with
  | .error err => (.error err, s)
  | .ok timesheet =>
    let timesheet : Timesheet :=
      { timesheet with
        Status := TimesheetStatusRejected,
        ApprovedBy := some approverID,
        ApprovedAt := some today,
        Notes := reason }
    match repo.UpdateTimesheet s timesheet with
    | .error err => (.error err, s)
    | .ok s1 => (.ok (), s1)

/-! ## Organization access (`pkg/auth/client.go`, `pkg/organization/client.go`) -/

/-- Go `auth.UserResponse`. -/
structure UserResponse where
  UserID : String
  OrganizationID : String
  Email : String
  Role : String
deriving DecidableEq, Repr

/-- Go `organization.OrganizationResponse`. -/
structure OrganizationResponse where
  ID : String
  Name : String
  Status : String
deriving DecidableEq, Repr

/-- What the access middlewares read of a request: the `Authorization`
header and the route parameters `organization_id` and `org_id`
(`c.Param` gives the empty string for a parameter the route does not
define). -/
structure AccessRequest where
  Authorization : String
  organization_id : String
  org_id : String
deriving DecidableEq, Repr

/-- What a gin middleware does with a request: it aborts with a status and
an error text, or it sets context keys and passes the request on. -/
inductive Access where
  | Abort (status : Nat) (error : String)
  | Next (keys : List (String × String))
deriving DecidableEq, Repr

/-- Go `AuthClient.VerifyOrganizationAccess`.  `ValidateToken` stands for
`AuthClient.ValidateToken`, the answer of the identity service for a token. -/
def VerifyOrganizationAccess (ValidateToken : String → Except Error UserResponse)
    (token organizationID : String) : Except Error Unit :=
  match ValidateToken token with
  | .error err => .error err
  | .ok claims =>
    if claims.OrganizationID ≠ organizationID then
      .error (.New "user does not have access to this organization")
    else
      .ok ()

/-- Go `AuthMiddleware.RequireOrganizationAccess`: it compares the
organization of the token with the route parameter `org_id`. -/
def RequireOrganizationAccess (ValidateToken : String → Except Error UserResponse)
    (c : AccessRequest) : Access :=
  let token := c.Authorization
  let orgID := c.org_id
  match VerifyOrganizationAccess ValidateToken token orgID with
  | .error _ => .Abort 403 "no access to this organization"
  | .ok _ => .Next []

/-- Go `organization.ValidateOrganizationAccess`, the middleware `setupRouter`
puts on the organization-scoped routes.  `ValidateToken` stands for
`AuthClient.ValidateToken` and `GetOrganization` for
`OrganizationClient.GetOrganization`, the answers of the two remote
services. -/
def ValidateOrganizationAccess (ValidateToken : String → Except Error UserResponse)
    (GetOrganization : String → String → Except Error OrganizationResponse)
    (c : AccessRequest) : Access :=
  let token := c.Authorization
  if token = "" then
    .Abort 401 "missing authorization header"
  else
    match ValidateToken token with
    | .error _ => .Abort 401 "invalid token"
    | .ok user =>
      match GetOrganization token user.OrganizationID with
      | .error _ => .Abort 403 "invalid organization access"
      | .ok org =>
        if org.Status ≠ "active" then
          .Abort 403 "invalid organization access"
        else
          .Next [("user_id", user.UserID), ("organization_id", user.OrganizationID),
                 ("email", user.Email), ("role", user.Role)]

/-! ## Errors and handlers (`internal/errors`, `internal/middleware`, `internal/handler`) -/

/-- Go `error.Error()`: the text of an error value. -/
def Error.Error : Error → String
  | .New text => text
  | .RecordNotFound => "record not found"
  | .Storage text => text

/-- One entry of the details of a validation error: the map built by
`translateValidationErrors`. -/
structure ValidationDetail where
  field : String
  tag : String
  value : String
  message : String
deriving DecidableEq, Repr

/-- Go `errors.AppError`. -/
structure AppError where
  Code : String
  Message : String
  Details : Option (List ValidationDetail)
  HTTPStatus : Nat
deriving DecidableEq, Repr

def ErrBadRequest : String := "BAD_REQUEST"
def ErrNotFound : String := "NOT_FOUND"
def ErrValidation : String := "VALIDATION_ERROR"
def ErrInternalServer : String := "INTERNAL_SERVER_ERROR"
def ErrDatabaseOperation : String := "DATABASE_ERROR"

/-- Go `errors.NewBadRequestError`. -/
def NewBadRequestError (message : String) : AppError :=
  { Code := ErrBadRequest, Message := message, Details := none, HTTPStatus := 400 }

/-- Go `errors.NewValidationError`. -/
def NewValidationError (details : List ValidationDetail) : AppError :=
  { Code := ErrValidation, Message := "Validation failed", Details := some details,
    HTTPStatus := 400 }

/-- Go `errors.NewNotFoundError`. -/
def NewNotFoundError (message : String) : AppError :=
  { Code := ErrNotFound, Message := message, Details := none, HTTPStatus := 404 }

/-- Go `errors.NewInternalServerError`. -/
def NewInternalServerError (message : String) : AppError :=
  { Code := ErrInternalServer, Message := message, Details := none, HTTPStatus := 500 }

/-- What `ErrorHandler` reads of a `validator.FieldError`. -/
structure FieldError where
  Field : String
  Tag : String
  Param : String
deriving DecidableEq, Repr

/-- An error value in `c.Errors`, by the cases `ErrorHandler` tells apart:
an `*errors.AppError`, a `validator.ValidationErrors`, or another error. -/
inductive GinError where
  | App (e : AppError)
  | Validation (errs : List FieldError)
  | Plain (e : Error)
deriving DecidableEq, Repr

/-- A JSON body written by a handler or a middleware. -/
inductive Body where
  /-- The map `gin.H{"error": text}`. -/
  | H (error : String)
  | App (e : AppError)
  | Attendance (a : Attendance)
  | Timesheet (t : Timesheet)
  | QRCode (q : QRCode)
  | Nil
deriving DecidableEq, Repr

/-- One `c.JSON(status, body)` call. -/
structure Response where
  status : Nat
  body : Body
deriving DecidableEq, Repr

/-- What a handler leaves in the gin context: the responses written and the
errors pushed to `c.Errors`. -/
structure Context where
  written : List Response
  Errors : List GinError
deriving DecidableEq, Repr

/-- A context in which one response was written and no error was pushed:
what every handler of `time_handler.go` leaves, since none calls `c.Error`. -/
def Context.JSON (status : Nat) (body : Body) : Context :=
  { written := [{ status := status, body := body }], Errors := [] }

/-- Go `getValidationErrorMessage`. -/
def getValidationErrorMessage (err : FieldError) : String :=
  if err.Tag = "required" then "This field is required"
  else if err.Tag = "email" then "Invalid email format"
  else if err.Tag = "min" then "Must be at least " ++ err.Param ++ " characters long"
  else if err.Tag = "max" then "Must not be longer than " ++ err.Param ++ " characters"
  else "Invalid value"

/-- Go `translateValidationErrors`. -/
def translateValidationErrors (errs : List FieldError) : List ValidationDetail :=
  errs.map (fun err =>
    { field := err.Field, tag := err.Tag, value := err.Param,
      message := getValidationErrorMessage err })

/-- Go `middleware.ErrorHandler`, applied to the context the rest of the
chain (`c.Next()`) left: when `c.Errors` is not empty it writes a structured
error for the last one. -/
def ErrorHandler (c : Context) : Context :=
  match c.Errors.getLast? with
  | none => c
  | some err =>
    match err with
    | .App appErr =>
      { c with written := c.written ++ [{ status := appErr.HTTPStatus, body := .App appErr }] }
    | .Plain .RecordNotFound =>
      { c with written := c.written ++
          [{ status := 404, body := .App (NewNotFoundError "Resource not found") }] }
    | .Validation verr =>
      { c with written := c.written ++
          [{ status := 400,
             body := .App (NewValidationError (translateValidationErrors verr)) }] }
    | .Plain _ =>
      { c with written := c.written ++
          [{ status := 500,
             body := .App (NewInternalServerError "An unexpected error occurred") }] }

/-- Go `TimeHandler.CheckIn`.  `bound` is the outcome of `c.ShouldBindJSON`:
the binding error or the bound request. -/
def TimeHandler.CheckIn {σ : Type} (repo : TimeRepository σ) (clk : Clock)
    (bound : Except Error CheckInRequest) (s : σ) : Context × σ :=
  match bound with
  | .error err => (Context.JSON 400 (.H err.Error), s)
  | .ok req =>
    match Comin.CheckIn repo clk req s with
    | (.error err, s1) => (Context.JSON 400 (.H err.Error), s1)
    | (.ok attendance, s1) => (Context.JSON 200 (.Attendance attendance), s1)

/-- Go `TimeHandler.CheckOut`. -/
def TimeHandler.CheckOut {σ : Type} (repo : TimeRepository σ) (clk : Clock)
    (bound : Except Error CheckOutRequest) (s : σ) : Context × σ :=
  match bound with
  | .error err => (Context.JSON 400 (.H err.Error), s)
  | .ok req =>
    match Comin.CheckOut repo clk req s with
    | (.error err, s1) => (Context.JSON 400 (.H err.Error), s1)
    | (.ok attendance, s1) => (Context.JSON 200 (.Attendance attendance), s1)

/-- Go `TimeHandler.CreateTimesheet`.  `organization_id` and `employee_id`
are the outcomes of `uuid.Parse` on the path parameters (`none` when the
text is no UUID). -/
def TimeHandler.CreateTimesheet {σ : Type} (repo : TimeRepository σ) (now : Time)
    (organization_id employee_id : Option UUID)
    (bound : Except Error CreateTimesheetRequest) (s : σ) : Context × σ :=
  match organization_id with
  | none => (Context.JSON 400 (.H "invalid organization id"), s)
  | some orgID =>
    match employee_id with
    | none => (Context.JSON 400 (.H "invalid employee id"), s)
    | some employeeID =>
      match bound with
      | .error err => (Context.JSON 400 (.H err.Error), s)
      | .ok req =>
        match Comin.CreateTimesheet repo now orgID employeeID req s with
        | (.error err, s1) => (Context.JSON 500 (.H err.Error), s1)
        | (.ok timesheet, s1) => (Context.JSON 201 (.Timesheet timesheet), s1)

/-- Go `TimeHandler.GetTimesheet`. -/
def TimeHandler.GetTimesheet {σ : Type} (repo : TimeRepository σ) (id : Option UUID)
    (s : σ) : Context × σ :=
  match id with
  | none => (Context.JSON 400 (.H "invalid timesheet id"), s)
  | some id =>
    match Comin.GetTimesheet repo id s with
    | (.error err, s1) => (Context.JSON 500 (.H err.Error), s1)
    | (.ok timesheet, s1) => (Context.JSON 200 (.Timesheet timesheet), s1)

/-- Go `TimeHandler.UpdateTimesheet`. -/
def TimeHandler.UpdateTimesheet {σ : Type} (repo : TimeRepository σ) (now : Time)
    (id : Option UUID) (bound : Except Error CreateTimesheetRequest) (s : σ) :
    Context × σ :=
  match id with
  | none => (Context.JSON 400 (.H "invalid timesheet id"), s)
  | some id =>
    match bound with
    | .error err => (Context.JSON 400 (.H err.Error), s)
    | .ok req =>
      match Comin.UpdateTimesheet repo now id req s with
      | (.error err, s1) => (Context.JSON 500 (.H err.Error), s1)
      | (.ok timesheet, s1) => (Context.JSON 200 (.Timesheet timesheet), s1)

/-! ## The store behind the repository -/

/-- The operations of `TimeRepository`. -/
inductive Op where
  | CreateAttendance
  | GetAttendanceByDate
  | UpdateAttendance
  | CreateQRCode
  | GetQRCode
  | UpdateQRCode
  | CreateTimesheet
  | GetTimesheet
  | UpdateTimesheet
  | DeleteTimesheet
deriving DecidableEq, Repr

/-- What the data layer under the repository (gorm and the database)
contributes to the repository calls of one service operation: for each
operation the error it reports, if it fails; the value of
`gen_random_uuid()`; and the value of `CURRENT_TIMESTAMP`. -/
structure Backend where
  fault : Op → Option Error
  newID : UUID
  now : Time

/-- A backend on which no repository operation fails. -/
def Backend.reliable (newID : UUID) (now : Time) : Backend :=
  { fault := fun _ => none, newID := newID, now := now }

/-- The three tables behind the gorm handle of `timeRepository`, one per
model of `models.go`; rows are kept in insertion order. -/
structure Store where
  attendances : List Attendance
  qrCodes : List QRCode
  timesheets : List Timesheet
deriving DecidableEq, Repr

/-- The empty store. -/
def Store.empty : Store := { attendances := [], qrCodes := [], timesheets := [] }

/-- The `Base` columns as an insert leaves them (`models.go`, lines 11-13):
a zero `ID` is drawn from `gen_random_uuid()`, zero timestamps take
`CURRENT_TIMESTAMP`. -/
def Base.inserted (b : Backend) (x : Base) : Base :=
  { ID := if x.ID = 0 then b.newID else x.ID,
    CreatedAt := if x.CreatedAt = 0 then b.now else x.CreatedAt,
    UpdatedAt := if x.UpdatedAt = 0 then b.now else x.UpdatedAt }

/-- The repository of `repository.go` over a data layer that behaves as `b`
says, with its updates keyed by the primary key.  It is `timeRepository`
(below) in every insert, lookup and delete, and differs from it in the three
`Update*` methods only.  An operation `b` fails reports that error and
leaves the store as it was.  Otherwise:

* `Create*` (`db.Create`) inserts the record as a new row and writes the
  columns it filled in back to the record: a field that has a `default` tag
  in `models.go` and holds its zero value takes the default (`ID`,
  `CreatedAt`, `UpdatedAt`; status `present` and work mode `office` of an
  attendance; status `pending` of a timesheet; `is_active` true of a QR
  code).  The insert is rejected when a row has the same primary key or, for
  QR codes, the same `code` (declared `unique`).
* `Get*` (`db.Where(...).First`) returns the first matching row or
  `RecordNotFound`.
* `DeleteTimesheet` (`db.Where("id = ?", id).Delete`) removes the rows with
  the `ID`.
* `Update*` is written `db.Model(&T{}).Updates(x)` in the source: the model
  is empty and there is no `Where`, and gorm refuses such a statement; that
  is `timeRepository` below.  Here, where `b` does not fail the update, the
  row with the `ID` of the record is replaced by the record, as an update
  keyed by the primary key does.  Results that rest on this branch are
  stated for `memRepo` and under the condition that the update succeeded;
  what the service does over the repository of the source is stated for
  `timeRepository`. -/
def memRepo (b : Backend) : TimeRepository Store where
  CreateAttendance := fun s a =>
    match b.fault .CreateAttendance with
    | some err => .error err
    | none =>
      let row : Attendance :=
        { a with
          toBase := Base.inserted b a.toBase,
          Status := if a.Status = "" then AttendanceStatusPresent else a.Status,
          WorkMode := if a.WorkMode = "" then WorkModeOffice else a.WorkMode }
      if s.attendances.any (fun r => decide (r.ID = row.ID)) then
        .error (.Storage "duplicate key value violates unique constraint")
      else
        .ok (row, { s with attendances := s.attendances ++ [row] })
  GetAttendanceByDate := fun s employeeID date =>
    match b.fault .GetAttendanceByDate with
    | some err => .error err
    | none =>
      match s.attendances.find? (fun r => decide (r.EmployeeID = employeeID ∧ r.Date = date)) with
      | some r => .ok r
      | none => .error .RecordNotFound
  UpdateAttendance := fun s a =>
    match b.fault .UpdateAttendance with
    | some err => .error err
    | none =>
      .ok { s with attendances := s.attendances.map (fun r => if r.ID = a.ID then a else r) }
  CreateQRCode := fun s q =>
    match b.fault .CreateQRCode with
    | some err => .error err
    | none =>
      let row : QRCode :=
        { q with
          toBase := Base.inserted b q.toBase,
          IsActive := if q.IsActive = false then true else q.IsActive }
      if s.qrCodes.any (fun r => decide (r.ID = row.ID ∨ r.Code = row.Code)) then
        .error (.Storage "duplicate key value violates unique constraint")
      else
        .ok (row, { s with qrCodes := s.qrCodes ++ [row] })
  GetQRCode := fun s code =>
    match b.fault .GetQRCode with
    | some err => .error err
    | none =>
      match s.qrCodes.find? (fun r => decide (r.Code = code)) with
      | some r => .ok r
      | none => .error .RecordNotFound
  UpdateQRCode := fun s q =>
    match b.fault .UpdateQRCode with
    | some err => .error err
    | none =>
      .ok { s with qrCodes := s.qrCodes.map (fun r => if r.ID = q.ID then q else r) }
  CreateTimesheet := fun s t =>
    match b.fault .CreateTimesheet with
    | some err => .error err
    | none =>
      let row : Timesheet :=
        { t with
          toBase := Base.inserted b t.toBase,
          Status := if t.Status = "" then TimesheetStatusPending else t.Status }
      if s.timesheets.any (fun r => decide (r.ID = row.ID)) then
        .error (.Storage "duplicate key value violates unique constraint")
      else
        .ok (row, { s with timesheets := s.timesheets ++ [row] })
  GetTimesheet := fun s id =>
    match b.fault .GetTimesheet with
    | some err => .error err
    | none =>
      match s.timesheets.find? (fun r => decide (r.ID = id)) with
      | some r => .ok r
      | none => .error .RecordNotFound
  UpdateTimesheet := fun s t =>
    match b.fault .UpdateTimesheet with
    | some err => .error err
    | none =>
      .ok { s with timesheets := s.timesheets.map (fun r => if r.ID = t.ID then t else r) }
  DeleteTimesheet := fun s id =>
    match b.fault .DeleteTimesheet with
    | some err => .error err
    | none =>
      .ok { s with timesheets := s.timesheets.filter (fun r => decide (r.ID ≠ id)) }

/-- Go `gorm.ErrMissingWhereClause`, the error of an `Updates` or `Delete`
statement that carries no condition. -/
def ErrMissingWhereClause : Error := .Storage "WHERE conditions required"

/-- Go `timeRepository` (`repository.go`) over its gorm handle: `memRepo`
with the three `Update*` methods as gorm answers them.  Each is
`r.db.Model(&domain.T{}).Updates(x).Error` (lines 59-61, 85-87, 111-113):
the model value is empty, so it gives no primary key, and no `Where` was
added, so gorm puts the fields of `x` in `SET`, finds no condition and
returns `ErrMissingWhereClause` without issuing the statement (the handle
is opened without `AllowGlobalUpdate`, `main.go` lines 84-88).  Nothing is
written, whatever the state of the database. -/
def timeRepository (b : Backend) : TimeRepository Store :=
  { memRepo b with
    UpdateAttendance := fun _ _ => .error ErrMissingWhereClause,
    UpdateQRCode := fun _ _ => .error ErrMissingWhereClause,
    UpdateTimesheet := fun _ _ => .error ErrMissingWhereClause }

/-- The data layer of `timeRepository` seen as a backend: `b` with the three
updates refused. -/
def Backend.gorm (b : Backend) : Backend :=
  { b with
    fault := fun op =>
      match op with
      | .UpdateAttendance => some ErrMissingWhereClause
      | .UpdateQRCode => some ErrMissingWhereClause
      | .UpdateTimesheet => some ErrMissingWhereClause
      | op => b.fault op }

/-! ## Sequences of attendance calls -/

/-- One `CheckIn` or `CheckOut` call on the store, with the backend
behaviour and the clock readings it meets. -/
inductive Call where
  | checkIn (b : Backend) (clk : Clock) (req : CheckInRequest)
  | checkOut (b : Backend) (clk : Clock) (req : CheckOutRequest)

/-- The store a call leaves behind when the service runs over
`timeRepository`. -/
def Call.serve (c : Call) (s : Store) : Store :=
  match c with
  | .checkIn b clk req => (CheckIn (timeRepository b) clk req s).2
  | .checkOut b clk req => (CheckOut (timeRepository b) clk req s).2

/-- The store a sequence of calls, served one after the other over
`timeRepository`, leaves behind. -/
def serveCalls (s : Store) (calls : List Call) : Store :=
  calls.foldl (fun st c => c.serve st) s

/-- The attendance lookup of the call is answered from the table: the
backend does not fail it.  (`CheckOut` stops at a failed lookup, so only
`CheckIn` calls are constrained.) -/
def Call.lookupAnswered : Call → Prop
  | .checkIn b _ _ => b.fault .GetAttendanceByDate = none
  | .checkOut _ _ _ => True

/-- No two rows of the attendance table share (employee, date). -/
def OnePerDay (rows : List Attendance) : Prop :=
  rows.Pairwise (fun a b => ¬ (a.EmployeeID = b.EmployeeID ∧ a.Date = b.Date))

/-- What sequential calls keep true of the attendance table: no two rows
share an `ID`, no two rows share (employee, date), and every row has its
check-in set. -/
def AttendanceInv (rows : List Attendance) : Prop :=
  (rows.map (fun r => r.ID)).Nodup ∧ OnePerDay rows ∧ ∀ r ∈ rows, r.CheckIn ≠ none

/-- A QR code row: employee 7 of organization 3, active, expiring at instant 100. -/
def sampleQR : QRCode :=
  { ID := 1, CreatedAt := 5, UpdatedAt := 5, OrganizationID := 3, EmployeeID := 7,
    Code := "abc", ExpiryDate := some 100, IsActive := true, LastUsed := none }

/-- A store holding `sampleQR` only. -/
def sampleStore : Store := { attendances := [], qrCodes := [sampleQR], timesheets := [] }

/-- A backend on which nothing fails, drawing `ID` 11 at database time 50. -/
def sampleBackend : Backend := Backend.reliable 11 50

/-- Clock readings of a call made at instant 50 (day 0). -/
def sampleClock : Clock := { validate := 50, stamp := 50, today := 50 }

/-- Clock readings of a call made at instant 60 (day 0). -/
def laterClock : Clock := { validate := 60, stamp := 60, today := 60 }

/-- A check-in request with the code of `sampleQR` and no timestamp. -/
def sampleCheckIn : CheckInRequest :=
  { QRCode := "abc", Location := "HQ", DeviceInfo := "phone", WorkMode := "office",
    Timestamp := 0 }

/-- A check-out request with the code of `sampleQR` and no timestamp. -/
def sampleCheckOut : CheckOutRequest :=
  { QRCode := "abc", Location := "gate", DeviceInfo := "tablet", Timestamp := 0 }

/-- The attendance row `sampleCheckIn` creates at `sampleClock`. -/
def sampleAttendance : Attendance :=
  { ID := 11, CreatedAt := 50, UpdatedAt := 50, OrganizationID := 3, EmployeeID := 7,
    CheckIn := some 50, CheckOut := none, Date := 0, Status := "present",
    WorkMode := "office", Location := "HQ", DeviceInfo := "phone" }

/-- The store `sampleCheckIn` leaves behind on `sampleStore`. -/
def checkedInStore : Store :=
  { attendances := [sampleAttendance],
    qrCodes := [{ sampleQR with LastUsed := some 50 }],
    timesheets := [] }

/-- The row of `sampleAttendance` once `sampleCheckOut` was made at `laterClock`. -/
def sampleCheckedOut : Attendance :=
  { sampleAttendance with CheckOut := some 60, Location := "gate", DeviceInfo := "tablet" }

/-- The store `sampleCheckOut` leaves behind on `checkedInStore`. -/
def checkedOutStore : Store :=
  { attendances := [sampleCheckedOut],
    qrCodes := [{ sampleQR with LastUsed := some 60 }],
    timesheets := [] }

/-- A backend that fails the attendance lookup and nothing else, drawing
`ID` 12 at database time 60. -/
def lookupFailing : Backend :=
  { fault := fun op => if op = .GetAttendanceByDate then some (.Storage "timeout") else none,
    newID := 12, now := 60 }

/-- A backend that fails the last-used update and nothing else, drawing
`ID` 11 at database time 50. -/
def updateFailing : Backend :=
  { fault := fun op => if op = .UpdateQRCode then some (.Storage "timeout") else none,
    newID := 11, now := 50 }

/-- A timesheet request for 8.5 hours that passes binding. -/
def sampleTimesheetRequest : CreateTimesheetRequest :=
  { ProjectID := some 21, TaskID := none, Description := "review", Date := "2024-01-02",
    Hours := 17 / 2, Notes := "asked by lead" }

/-- A backend on which nothing fails, drawing `ID` 31 at database time 50. -/
def timesheetBackend : Backend := Backend.reliable 31 50

/-- The timesheet row `sampleTimesheetRequest` creates for employee 7 of
organization 3 at instant 50. -/
def sampleTimesheet : Timesheet :=
  { ID := 31, CreatedAt := 50, UpdatedAt := 50, OrganizationID := 3, EmployeeID := 7,
    ProjectID := some 21, TaskID := none, Description := "review", Date := 0,
    Hours := 17 / 2, Status := "pending", Notes := "", ApprovedBy := none,
    ApprovedAt := none }

/-- A second timesheet row, of employee 8, with notes. -/
def otherTimesheet : Timesheet :=
  { ID := 32, CreatedAt := 40, UpdatedAt := 40, OrganizationID := 3, EmployeeID := 8,
    ProjectID := none, TaskID := some 5, Description := "design", Date := 0,
    Hours := 4, Status := "pending", Notes := "half day", ApprovedBy := none,
    ApprovedAt := none }

/-- A store holding `otherTimesheet` and `sampleTimesheet`. -/
def timesheetStore : Store :=
  { attendances := [], qrCodes := [], timesheets := [otherTimesheet, sampleTimesheet] }

/-- A backend that fails the QR code lookup and nothing else, drawing `ID`
12 at database time 60. -/
def codeLookupFailing : Backend :=
  { fault := fun op => if op = .GetQRCode then some (.Storage "timeout") else none,
    newID := 12, now := 60 }

/-- The identity service of the samples: the token `Bearer token-a` belongs
to user `u1` of organization `org-a`; every other token is refused. -/
def sampleValidateToken (token : String) : Except Error UserResponse :=
  if token = "Bearer token-a" then
    .ok { UserID := "u1", OrganizationID := "org-a", Email := "a@example.com",
          Role := "employee" }
  else
    .error (.New "invalid token")

/-- The organization service of the samples: `org-a` and `org-b` are active,
`org-c` is suspended, and no other organization is known. -/
def sampleGetOrganization (_token organizationID : String) :
    Except Error OrganizationResponse :=
  if organizationID = "org-a" then .ok { ID := "org-a", Name := "A", Status := "active" }
  else if organizationID = "org-b" then .ok { ID := "org-b", Name := "B", Status := "active" }
  else if organizationID = "org-c" then
    .ok { ID := "org-c", Name := "C", Status := "suspended" }
  else .error (.New "failed to get organization")

/-- A request on a path of organization `org-b` that carries the token of a
user of organization `org-a`, on a route of `setupRouter`: these name the
parameter `organization_id` and define no `org_id`. -/
def crossOrgRequest : AccessRequest :=
  { Authorization := "Bearer token-a", organization_id := "org-b", org_id := "" }

/-- The text of the storage failure of the samples. -/
def connectionRefused : String := "dial tcp 10.0.0.5:5432: connect: connection refused"

/-- A backend that fails inserting an attendance row, inserting a timesheet
row and reading a timesheet row with `connectionRefused`, and nothing else,
drawing `ID` 31 at database time 50. -/
def databaseDown : Backend :=
  { fault := fun op =>
      if op = .CreateAttendance ∨ op = .CreateTimesheet ∨ op = .GetTimesheet then
        some (.Storage connectionRefused)
      else none,
    newID := 31, now := 50 }

/-- The record a request for 9223372036854775807 days of employee 7 of
organization 3 gets in UTC at instant 1000, with code "xyz" and `ID` 9. -/
def wrappedQR : QRCode :=
  { ID := 9, CreatedAt := 1000, UpdatedAt := 1000, OrganizationID := 3, EmployeeID := 7,
    Code := "xyz", ExpiryDate := some (1000 - 86400000000000), IsActive := true,
    LastUsed := none }

/-- A zone one hour east of UTC until twelve hours after instant 1000 (Unix
second -62135553600) and two hours east of UTC from then on. -/
def summerZone : Location :=
  { lookup := fun sec =>
      if sec < -62135553600 then
        { offset := 3600, start := -9223372036854775808, stop := -62135553600 }
      else
        { offset := 7200, start := -62135553600, stop := 9223372036854775807 } }

/-- The row a second `sampleCheckIn` inserts at instant 60 under `ID` 12. -/
def secondAttendance : Attendance :=
  { sampleAttendance with ID := 12, CreatedAt := 60, UpdatedAt := 60, CheckIn := some 60 }

/-- Two check-ins with the code of `sampleQR` on day 0, at instants 50 and
60; the attendance lookup of the second fails with a storage error. -/
def failedLookupCalls : List Call :=
  [ .checkIn sampleBackend sampleClock sampleCheckIn,
    .checkIn lookupFailing laterClock sampleCheckIn ]

/-- The store `sampleCheckIn` leaves behind on `sampleStore` over
`timeRepository`: the attendance row is stored, and the QR code row is as it
was because the last-used update was refused. -/
def servedStore : Store :=
  { attendances := [sampleAttendance], qrCodes := [sampleQR], timesheets := [] }

/-- The store `sampleTimesheetRequest` leaves behind on the empty store:
`sampleTimesheet` only. -/
def createdStore : Store :=
  { attendances := [], qrCodes := [], timesheets := [sampleTimesheet] }

/-! ## QR code validation -/

/-- The lookup of `memRepo` fails whenever no row carries the code. -/
theorem memRepo_GetQRCode_absent (b : Backend) (s : Store) (code : String)
    (h : ∀ q ∈ s.qrCodes, q.Code ≠ code) :
    ∃ e, (memRepo b).GetQRCode s code = .error e := by
  have hfind : s.qrCodes.find? (fun r => decide (r.Code = code)) = none := by
    rw [List.find?_eq_none]
    intro q hq
    simpa using h q hq
  simp only [memRepo]
  cases hf : b.fault .GetQRCode with
  | some err => exact ⟨err, rfl⟩
  | none => exact ⟨.RecordNotFound, by simp [hfind]⟩

/-- The lookup of `memRepo`, when the backend does not fail it, returns the
first row carrying the code. -/
theorem memRepo_GetQRCode_found (b : Backend) (s : Store) (code : String) (q : QRCode)
    (hb : b.fault .GetQRCode = none)
    (h : s.qrCodes.find? (fun r => decide (r.Code = code)) = some q) :
    (memRepo b).GetQRCode s code = .ok q := by
  simp [memRepo, hb, h]

/-- C1: `ValidateQRCode` leaves the store as it was; it fails with
"invalid QR code" when the lookup of the code fails, which on the store is
the case whenever no row carries the code; for an active record it fails
with "QR code has expired" exactly when the expiry is set and `now` is
strictly after it; and for an active record that is not expired it returns
the stored record itself. -/
theorem ValidateQRCode_decision :
    (∀ (σ : Type) (repo : TimeRepository σ) (now : Time) (code : String) (s : σ),
      (ValidateQRCode repo now code s).2 = s ∧
      (∀ e, repo.GetQRCode s code = .error e →
        (ValidateQRCode repo now code s).1 = .error (.New "invalid QR code")) ∧
      (∀ q, repo.GetQRCode s code = .ok q → q.IsActive = true →
        ((ValidateQRCode repo now code s).1 = .error (.New "QR code has expired") ↔
          ∃ expiry, q.ExpiryDate = some expiry ∧ expiry < now) ∧
        ((¬ ∃ expiry, q.ExpiryDate = some expiry ∧ expiry < now) →
          (ValidateQRCode repo now code s).1 = .ok q))) ∧
    (∀ (b : Backend) (now : Time) (s : Store) (code : String),
      (∀ q ∈ s.qrCodes, q.Code ≠ code) →
      ValidateQRCode (memRepo b) now code s = (.error (.New "invalid QR code"), s)) := by
  refine ⟨?_, ?_⟩
  · intro σ repo now code s
    refine ⟨?_, ?_, ?_⟩
    · unfold ValidateQRCode
      cases repo.GetQRCode s code with
      | error e => rfl
      | ok q =>
        dsimp only
        split_ifs <;> rfl
    · intro e he
      simp [ValidateQRCode, he]
    · intro q hq hact
      cases hexp : q.ExpiryDate with
      | none => simp [ValidateQRCode, hq, hact, hexp]
      | some expiry =>
        by_cases hlt : expiry < now
        · simp [ValidateQRCode, hq, hact, hexp, Time.After, hlt]
        · simp [ValidateQRCode, hq, hact, hexp, Time.After, hlt]
  · intro b now s code h
    obtain ⟨e, he⟩ := memRepo_GetQRCode_absent b s code h
    simp [ValidateQRCode, he]

/-- Witness for C1 on `sampleStore`: at instant 100, the expiry itself, the
code "abc" validates and the stored row comes back; at instant 101 it has
expired; the code "zzz" is unknown. -/
theorem ValidateQRCode_decision_witness :
    (ValidateQRCode (memRepo (Backend.reliable 0 0)) 100 "abc" sampleStore).1 = .ok sampleQR ∧
    (ValidateQRCode (memRepo (Backend.reliable 0 0)) 100 "abc" sampleStore).2 = sampleStore ∧
    (ValidateQRCode (memRepo (Backend.reliable 0 0)) 101 "abc" sampleStore).1
      = .error (.New "QR code has expired") ∧
    ValidateQRCode (memRepo (Backend.reliable 0 0)) 100 "zzz" sampleStore
      = (.error (.New "invalid QR code"), sampleStore) :=
  ⟨((ValidateQRCode_decision.1 Store (memRepo (Backend.reliable 0 0)) 100 "abc"
        sampleStore).2.2 sampleQR (by decide) (by decide)).2 (by decide),
   (ValidateQRCode_decision.1 Store (memRepo (Backend.reliable 0 0)) 100 "abc" sampleStore).1,
   ((ValidateQRCode_decision.1 Store (memRepo (Backend.reliable 0 0)) 101 "abc"
        sampleStore).2.2 sampleQR (by decide) (by decide)).1.2 ⟨100, by decide, by decide⟩,
   ValidateQRCode_decision.2 (Backend.reliable 0 0) 100 sampleStore "zzz" (by decide)⟩

/-- C2: a QR code record whose active flag is false fails validation with
"QR code is inactive" at every clock reading and whatever its expiry is
(unset, in the future or already past), so never with "QR code has expired",
and the store is left as it was: on every repository for the record the
lookup returns, and on the store for the row that carries the code, when
the lookup is answered by the table. -/
theorem ValidateQRCode_inactive :
    (∀ (σ : Type) (repo : TimeRepository σ) (now : Time) (code : String) (s : σ)
        (q : QRCode), repo.GetQRCode s code = .ok q → q.IsActive = false →
      ValidateQRCode repo now code s = (.error (.New "QR code is inactive"), s) ∧
      (ValidateQRCode repo now code s).1 ≠ .error (.New "QR code has expired")) ∧
    (∀ (b : Backend) (now : Time) (code : String) (s : Store) (q : QRCode),
      b.fault .GetQRCode = none →
      s.qrCodes.find? (fun r => decide (r.Code = code)) = some q → q.IsActive = false →
      ValidateQRCode (memRepo b) now code s = (.error (.New "QR code is inactive"), s)) := by
  have partA : ∀ (σ : Type) (repo : TimeRepository σ) (now : Time) (code : String) (s : σ)
      (q : QRCode), repo.GetQRCode s code = .ok q → q.IsActive = false →
      ValidateQRCode repo now code s = (.error (.New "QR code is inactive"), s) := by
    intro σ repo now code s q hq hin
    simp [ValidateQRCode, hq, hin]
  refine ⟨?_, ?_⟩
  · intro σ repo now code s q hq hin
    refine ⟨partA σ repo now code s q hq hin, ?_⟩
    rw [partA σ repo now code s q hq hin]
    intro hne
    simp only [Except.error.injEq, Error.New.injEq] at hne
    exact absurd hne (by decide)
  · intro b now code s q hb hfind hin
    exact partA Store (memRepo b) now code s q (memRepo_GetQRCode_found b s code q hb hfind) hin

/-- Witness for C2: an inactive row that expired at instant 100 reports
"QR code is inactive", not "QR code has expired", at instant 500. -/
theorem ValidateQRCode_inactive_witness :
    ValidateQRCode (memRepo (Backend.reliable 0 0)) 500 "abc"
        { sampleStore with qrCodes := [{ sampleQR with IsActive := false }] }
      = (.error (.New "QR code is inactive"),
         { sampleStore with qrCodes := [{ sampleQR with IsActive := false }] }) ∧
    ValidateQRCode (memRepo (Backend.reliable 0 0)) 50 "abc"
        { sampleStore with qrCodes := [{ sampleQR with IsActive := false }] }
      = (.error (.New "QR code is inactive"),
         { sampleStore with qrCodes := [{ sampleQR with IsActive := false }] }) :=
  ⟨(ValidateQRCode_inactive.1 Store (memRepo (Backend.reliable 0 0)) 500 "abc"
      { sampleStore with qrCodes := [{ sampleQR with IsActive := false }] }
      { sampleQR with IsActive := false } (by decide) (by decide)).1,
   ValidateQRCode_inactive.2 (Backend.reliable 0 0) 50 "abc"
      { sampleStore with qrCodes := [{ sampleQR with IsActive := false }] }
      { sampleQR with IsActive := false } rfl (by decide) (by decide)⟩

/-! ## QR code generation -/

/-- The repository of the sources is `memRepo` over the backend that
refuses the three updates. -/
theorem timeRepository_eq (b : Backend) : timeRepository b = memRepo b.gorm := rfl

/-- The repository of the sources and `memRepo` have the same inserts,
lookups and delete. -/
theorem timeRepository_inserts_and_lookups (b : Backend) :
    (timeRepository b).CreateAttendance = (memRepo b).CreateAttendance ∧
    (timeRepository b).GetAttendanceByDate = (memRepo b).GetAttendanceByDate ∧
    (timeRepository b).CreateQRCode = (memRepo b).CreateQRCode ∧
    (timeRepository b).GetQRCode = (memRepo b).GetQRCode ∧
    (timeRepository b).CreateTimesheet = (memRepo b).CreateTimesheet ∧
    (timeRepository b).GetTimesheet = (memRepo b).GetTimesheet ∧
    (timeRepository b).DeleteTimesheet = (memRepo b).DeleteTimesheet :=
  ⟨rfl, rfl, rfl, rfl, rfl, rfl, rfl⟩

/-- Every update of the repository of the sources is refused and writes
nothing. -/
theorem timeRepository_updates (b : Backend) (s : Store) (a : Attendance) (q : QRCode)
    (t : Timesheet) :
    (timeRepository b).UpdateAttendance s a = .error (.Storage "WHERE conditions required") ∧
    (timeRepository b).UpdateQRCode s q = .error (.Storage "WHERE conditions required") ∧
    (timeRepository b).UpdateTimesheet s t = .error (.Storage "WHERE conditions required") :=
  ⟨rfl, rfl, rfl⟩

/-- `int64` leaves a value in the range of `int64` as it is. -/
theorem int64_of_range (x : Int) (hlo : -9223372036854775808 ≤ x)
    (hhi : x < 9223372036854775808) : int64 x = x := by
  unfold int64
  omega

/-- In a zone whose offset never changes, `AddDate` adds 24 hours for each
day, as long as the second count stays in the range of `int64`. -/
theorem AddDate_fixed_offset (loc : Location) (c : Int) (t : Int) (days : Int)
    (hfix : ∀ u, (loc.lookup u).offset = c) (hlo : -86400 ≤ c) (hhi : c ≤ 86400)
    (h0 : 0 ≤ t) (hd : 0 ≤ days)
    (hmax : t / 1000000000 + days * 86400 < 9223372036854689408) :
    Time.AddDate loc t days = t + days * 86400000000000 := by
  have hS : 0 ≤ t / 1000000000 := by omega
  have e1 : int64 (t / 1000000000 - 62135596800 + c + days * 86400)
      = t / 1000000000 - 62135596800 + c + days * 86400 :=
    int64_of_range _ (by omega) (by omega)
  have e2 : int64 (t / 1000000000 - 62135596800 + c + days * 86400 - c)
      = t / 1000000000 - 62135596800 + days * 86400 := by
    rw [int64_of_range _ (by omega) (by omega)]
    omega
  have e3 : int64 (t / 1000000000 - 62135596800 + days * 86400 + 62135596800)
      = t / 1000000000 + days * 86400 := by
    rw [int64_of_range _ (by omega) (by omega)]
    omega
  have hsplit := Int.ediv_add_emod t 1000000000
  simp only [Time.AddDate, hfix, unixToInternal, e1, e2, ite_self]
  by_cases hc0 : c = 0
  · subst hc0
    simp only [ne_eq, not_true_eq_false, if_false]
    have e4 : int64 (t / 1000000000 - 62135596800 + 0 + days * 86400 + 62135596800)
        = t / 1000000000 + days * 86400 := by
      rw [int64_of_range _ (by omega) (by omega)]
      omega
    rw [e4]
    linarith
  · simp only [ne_eq, hc0, not_false_eq_true, if_true, e3]
    linarith

/-- A successful `CreateQRCode` on the store: the row is the record with its
`Base` columns filled in and `is_active` true, no earlier row has its `ID` or
its code, and the row is appended. -/
theorem memRepo_CreateQRCode_ok (b : Backend) (s s1 : Store) (q row : QRCode)
    (h : (memRepo b).CreateQRCode s q = .ok (row, s1)) :
    row = { q with toBase := Base.inserted b q.toBase, IsActive := true } ∧
    (∀ r ∈ s.qrCodes, r.ID ≠ row.ID ∧ r.Code ≠ row.Code) ∧
    s1 = { s with qrCodes := s.qrCodes ++ [row] } := by
  simp only [memRepo] at h
  cases hf : b.fault .CreateQRCode with
  | some err => simp [hf] at h
  | none =>
    simp only [hf] at h
    have hact : (if q.IsActive = false then true else q.IsActive) = true := by
      cases q.IsActive <;> rfl
    rw [hact] at h
    split_ifs at h with hany
    simp only [Except.ok.injEq, Prod.mk.injEq] at h
    obtain ⟨hrow, hs⟩ := h
    subst hrow
    refine ⟨rfl, ?_, hs.symm⟩
    intro r hr
    simp only [List.any_eq_true, decide_eq_true_eq, not_exists, not_and, not_or] at hany
    exact hany r hr

/-- What a successful `GenerateQRCode` on the store did: the code was drawn,
no row carried it, and the returned record is the built record with its
`Base` columns filled in, appended to the table. -/
theorem GenerateQRCode_ok (b : Backend) (code : Except Error String) (loc : Location)
    (now : Time) (orgID : UUID) (req : GenerateQRRequest) (s s1 : Store) (q : QRCode)
    (h : GenerateQRCode (memRepo b) code loc now orgID req s = (.ok q, s1)) :
    ∃ c, code = .ok c ∧
      q = { toBase := Base.inserted b { ID := 0, CreatedAt := 0, UpdatedAt := 0 },
            OrganizationID := orgID, EmployeeID := req.EmployeeID, Code := c,
            ExpiryDate := if req.ExpiryDays > 0 then some (Time.AddDate loc now req.ExpiryDays)
                          else none,
            IsActive := true, LastUsed := none } ∧
      (∀ r ∈ s.qrCodes, r.Code ≠ c) ∧
      s1 = { s with qrCodes := s.qrCodes ++ [q] } := by
  cases code with
  | error e => simp [GenerateQRCode] at h
  | ok c =>
    refine ⟨c, rfl, ?_⟩
    simp only [GenerateQRCode] at h
    cases hc : (memRepo b).CreateQRCode s
        { ID := 0, CreatedAt := 0, UpdatedAt := 0, OrganizationID := orgID,
          EmployeeID := req.EmployeeID, Code := c,
          ExpiryDate := if req.ExpiryDays > 0 then some (Time.AddDate loc now req.ExpiryDays)
                        else none,
          IsActive := true, LastUsed := none } with
    | error e => simp [hc] at h
    | ok p =>
      obtain ⟨row, s2⟩ := p
      simp only [hc, Prod.mk.injEq, Except.ok.injEq] at h
      obtain ⟨hq, hs⟩ := h
      subst hq hs
      obtain ⟨hrow, hnew, hst⟩ := memRepo_CreateQRCode_ok b s s2 _ row hc
      refine ⟨hrow, ?_, hst⟩
      intro r hr
      have := (hnew r hr).2
      rw [hrow] at this
      exact this

/-- Replacing rows by key keeps the lookup on the replaced row: when the
first row satisfying `p` is `a`, and `a2` has the key of `a` and satisfies
`p`, the first row satisfying `p` after every row with that key became `a2`
is `a2`. -/
theorem find?_map_replace {α κ : Type} [DecidableEq κ] (p : α → Bool) (key : α → κ)
    (l : List α) (a a2 : α) (hfind : l.find? p = some a) (hp : p a2 = true)
    (hkey : key a2 = key a) :
    (l.map (fun r => if key r = key a2 then a2 else r)).find? p = some a2 := by
  induction l with
  | nil => simp at hfind
  | cons x xs ih =>
    rw [List.map_cons, List.find?_cons]
    by_cases hk : key x = key a2
    · simp [hk, hp]
    · rw [List.find?_cons] at hfind
      cases hpx : p x with
      | true =>
        rw [hpx] at hfind
        simp only [Option.some.injEq] at hfind
        exact absurd (by rw [hfind, hkey]) hk
      | false =>
        rw [hpx] at hfind
        simp only [hk, if_false, hpx]
        exact ih hfind

/-- Counterexample for C3: in UTC at instant 1000, a request for
9223372036854775807 days, the largest `int`, succeeds and returns a record
whose expiry is instant 1000 less 24 hours: the day count wraps in the
64-bit arithmetic of `AddDate`.  The expiry is not instant 1000 plus that
many days, and the code is expired at the instant it was issued. -/
theorem expiry_days_wrap :
    GenerateQRCode (timeRepository (Backend.reliable 9 1000)) (.ok "xyz") UTC 1000 3
        { EmployeeID := 7, ExpiryDays := 9223372036854775807 } Store.empty
      = (.ok wrappedQR, { Store.empty with qrCodes := [wrappedQR] }) ∧
    wrappedQR.ExpiryDate = some (1000 - 86400000000000) ∧
    wrappedQR.ExpiryDate ≠ some (1000 + 9223372036854775807 * 86400000000000) ∧
    ValidateQRCode (timeRepository (Backend.reliable 9 1000)) 1000 "xyz"
        { Store.empty with qrCodes := [wrappedQR] }
      = (.error (.New "QR code has expired"), { Store.empty with qrCodes := [wrappedQR] }) := by
  decide

/-- Where the offset of the zone changes between the instant and the later
day, `AddDate` gives the same clock reading on the later day, not a multiple
of 24 hours later.  In `summerZone`, whose offset
grows by one hour twelve hours after instant 1000, one day after instant
1000 is 23 hours later. -/
theorem AddDate_across_offset_change :
    Time.AddDate summerZone 1000 1 = 1000 + 23 * 3600000000000 := by
  decide

/-- C3 (amended): a successful `GenerateQRCode` at clock reading `now`
returns a record whose expiry is unset when `ExpiryDays <= 0`; when
`ExpiryDays > 0`, the zone of the server has an offset that never changes
(of at most 24 hours, as UTC has) and `now` plus `ExpiryDays` days lies
within the 64-bit second count of `time.Time`, the expiry is exactly `now`
plus `ExpiryDays` times 24 hours; and a record whose expiry is unset never
fails `ValidateQRCode` with "QR code has expired", at any clock reading. -/
theorem GenerateQRCode_expiry (b : Backend) (code : Except Error String) (loc : Location)
    (now : Time) (orgID : UUID) (req : GenerateQRRequest) (s s1 : Store) (q : QRCode)
    (h : GenerateQRCode (timeRepository b) code loc now orgID req s = (.ok q, s1)) :
    (0 < req.ExpiryDays →
      ∀ c : Int, (∀ u, (loc.lookup u).offset = c) → -86400 ≤ c → c ≤ 86400 → 0 ≤ now →
        now / 1000000000 + req.ExpiryDays * 86400 < 9223372036854689408 →
        q.ExpiryDate = some (now + req.ExpiryDays * 86400000000000)) ∧
    (req.ExpiryDays ≤ 0 → q.ExpiryDate = none) ∧
    (∀ (σ : Type) (repo : TimeRepository σ) (later : Time) (c : String) (st : σ)
        (r : QRCode), repo.GetQRCode st c = .ok r → r.ExpiryDate = none →
      (ValidateQRCode repo later c st).1 ≠ .error (.New "QR code has expired")) := by
  rw [timeRepository_eq] at h
  obtain ⟨c, -, hq, -, -⟩ := GenerateQRCode_ok b.gorm code loc now orgID req s s1 q h
  refine ⟨?_, ?_, ?_⟩
  · intro hpos c hfix hlo hhi h0 hmax
    rw [hq]
    simp only [gt_iff_lt, hpos, if_true]
    rw [AddDate_fixed_offset loc c now req.ExpiryDays hfix hlo hhi h0 (le_of_lt hpos) hmax]
  · intro hle
    rw [hq]
    have : ¬ req.ExpiryDays > 0 := not_lt.mpr hle
    simp [this]
  · intro σ repo later c st r hr hexp
    cases hact : r.IsActive with
    | false => simp [ValidateQRCode, hr, hact]
    | true => simp [ValidateQRCode, hr, hact, hexp]

/-- Witness for C3 (amended): on `sampleStore`, in UTC, a request for 2 days
at instant 1000 gives expiry `1000 + 2 * 86400000000000`. -/
theorem GenerateQRCode_expiry_witness :
    ∃ q s1, GenerateQRCode (timeRepository (Backend.reliable 9 1000)) (.ok "xyz") UTC 1000 3
        { EmployeeID := 7, ExpiryDays := 2 } sampleStore = (.ok q, s1) ∧
      q.ExpiryDate = some (1000 + 2 * 86400000000000) :=
  ⟨_, _, rfl,
    (GenerateQRCode_expiry (Backend.reliable 9 1000) (.ok "xyz") UTC 1000 3
      { EmployeeID := 7, ExpiryDays := 2 } sampleStore _ _ rfl).1 (by decide) 0
      (fun _ => rfl) (by decide) (by decide) (by decide) (by decide)⟩

/-- C4: when `GenerateQRCode` succeeds the store held no row with the
generated code, the returned record is active, carries the given
organization and employee, has last-used unset and is in the table; and
`ValidateQRCode` of the returned code on the resulting store, at a clock
reading not after the expiry (if any) and with the lookup answered by the
table, returns that same record and leaves the store as it is. -/
theorem GenerateQRCode_then_validate (b b2 : Backend) (code : Except Error String)
    (loc : Location) (now later : Time) (orgID : UUID) (req : GenerateQRRequest)
    (s s1 : Store) (q : QRCode)
    (h : GenerateQRCode (memRepo b) code loc now orgID req s = (.ok q, s1))
    (hb2 : b2.fault .GetQRCode = none)
    (hlater : ∀ expiry, q.ExpiryDate = some expiry → later ≤ expiry) :
    code = .ok q.Code ∧ (∀ r ∈ s.qrCodes, r.Code ≠ q.Code) ∧
    q.IsActive = true ∧ q.OrganizationID = orgID ∧ q.EmployeeID = req.EmployeeID ∧
    q.LastUsed = none ∧ q ∈ s1.qrCodes ∧
    ValidateQRCode (memRepo b2) later q.Code s1 = (.ok q, s1) := by
  obtain ⟨c, hc, hq, hnew, hs1⟩ := GenerateQRCode_ok b code loc now orgID req s s1 q h
  have hcode : q.Code = c := by rw [hq]
  have hact : q.IsActive = true := by rw [hq]
  have hfind : s1.qrCodes.find? (fun r => decide (r.Code = q.Code)) = some q := by
    rw [hs1]
    simp only [List.find?_append]
    have hnone : s.qrCodes.find? (fun r => decide (r.Code = q.Code)) = none := by
      rw [List.find?_eq_none]
      intro r hr
      simpa [hcode] using hnew r hr
    rw [hnone]
    simp
  have hget := memRepo_GetQRCode_found b2 s1 q.Code q hb2 hfind
  refine ⟨by rw [hc, hcode], by rw [hcode]; exact hnew, hact, by rw [hq], by rw [hq],
    by rw [hq], List.mem_of_find?_eq_some hfind, ?_⟩
  cases hexp : q.ExpiryDate with
  | none => simp [ValidateQRCode, hget, hact, hexp]
  | some expiry =>
    have hle := hlater expiry hexp
    simp [ValidateQRCode, hget, hact, hexp, Time.After, not_lt.mpr hle]

/-- Witness for C4: issue a code expiring after 1 day on `sampleStore` at
instant 1000, then validate it at the same instant. -/
theorem GenerateQRCode_then_validate_witness :
    ∃ q s1, GenerateQRCode (memRepo (Backend.reliable 9 1000)) (.ok "xyz") UTC 1000 3
        { EmployeeID := 7, ExpiryDays := 1 } sampleStore = (.ok q, s1) ∧
      q.IsActive = true ∧ q.Code = "xyz" ∧
      ValidateQRCode (memRepo (Backend.reliable 0 0)) 1000 q.Code s1 = (.ok q, s1) :=
  ⟨_, _, rfl, by decide, by decide,
    (GenerateQRCode_then_validate (Backend.reliable 9 1000) (Backend.reliable 0 0)
      (.ok "xyz") UTC 1000 1000 3 { EmployeeID := 7, ExpiryDays := 1 } sampleStore _ _ rfl rfl
      (by decide)).2.2.2.2.2.2.2⟩

/-! ## Attendance: the failing paths -/

/-- Validation returns the store it was given. -/
theorem ValidateQRCode_state {σ : Type} (repo : TimeRepository σ) (now : Time)
    (code : String) (s : σ) : (ValidateQRCode repo now code s).2 = s := by
  unfold ValidateQRCode
  cases repo.GetQRCode s code with
  | error e => rfl
  | ok q =>
    dsimp only
    split_ifs <;> rfl

/-- A successful validation, as a pair. -/
theorem ValidateQRCode_eq_of_ok {σ : Type} (repo : TimeRepository σ) (now : Time)
    (code : String) (s : σ) (q : QRCode)
    (h : (ValidateQRCode repo now code s).1 = .ok q) :
    ValidateQRCode repo now code s = (.ok q, s) :=
  Prod.ext h (ValidateQRCode_state repo now code s)

/-- A successful validation returns the record the lookup returned. -/
theorem ValidateQRCode_ok_lookup {σ : Type} (repo : TimeRepository σ) (now : Time)
    (code : String) (s : σ) (q : QRCode)
    (h : (ValidateQRCode repo now code s).1 = .ok q) :
    repo.GetQRCode s code = .ok q ∧ q.IsActive = true ∧
      ∀ expiry, q.ExpiryDate = some expiry → now ≤ expiry := by
  unfold ValidateQRCode at h
  cases hg : repo.GetQRCode s code with
  | error e => simp [hg] at h
  | ok r =>
    simp only [hg] at h
    split_ifs at h with hact hexp
    simp only [Except.ok.injEq] at h
    subst h
    refine ⟨rfl, by simpa using hact, ?_⟩
    intro expiry he
    simp only [he, Time.After, decide_eq_true_eq, not_lt] at hexp
    exact hexp

/-- The attendance lookup of the store, when the backend does not fail it:
the first row of the employee and date, or `RecordNotFound`. -/
theorem memRepo_GetAttendanceByDate_answered (b : Backend) (s : Store) (e : UUID)
    (d : Time) (hb : b.fault .GetAttendanceByDate = none) :
    (memRepo b).GetAttendanceByDate s e d =
      match s.attendances.find? (fun r => decide (r.EmployeeID = e ∧ r.Date = d)) with
      | some r => .ok r
      | none => .error .RecordNotFound := by
  simp [memRepo, hb]

/-- A record returned by the attendance lookup of the store is the first row
of the employee and date. -/
theorem memRepo_GetAttendanceByDate_ok (b : Backend) (s : Store) (e : UUID) (d : Time)
    (a : Attendance) (h : (memRepo b).GetAttendanceByDate s e d = .ok a) :
    s.attendances.find? (fun r => decide (r.EmployeeID = e ∧ r.Date = d)) = some a := by
  simp only [memRepo] at h
  cases hf : b.fault .GetAttendanceByDate with
  | some err => simp [hf] at h
  | none =>
    rw [hf] at h
    dsimp only at h
    cases hfind : s.attendances.find? (fun r => decide (r.EmployeeID = e ∧ r.Date = d)) with
    | none => rw [hfind] at h; cases h
    | some r =>
      rw [hfind] at h
      simp only [Except.ok.injEq] at h
      rw [h]

/-- A successful `CreateAttendance` on the store: the row is the record with
its `Base` columns filled in and an empty status and work mode replaced by
their defaults, no earlier row has its `ID`, and the row is appended. -/
theorem memRepo_CreateAttendance_ok (b : Backend) (s s1 : Store) (a row : Attendance)
    (h : (memRepo b).CreateAttendance s a = .ok (row, s1)) :
    row = { a with
            toBase := Base.inserted b a.toBase,
            Status := if a.Status = "" then AttendanceStatusPresent else a.Status,
            WorkMode := if a.WorkMode = "" then WorkModeOffice else a.WorkMode } ∧
    (∀ r ∈ s.attendances, r.ID ≠ row.ID) ∧
    s1 = { s with attendances := s.attendances ++ [row] } := by
  simp only [memRepo] at h
  cases hf : b.fault .CreateAttendance with
  | some err => simp [hf] at h
  | none =>
    simp only [hf] at h
    by_cases hany : (s.attendances.any fun r =>
        decide (r.ID = (Base.inserted b a.toBase).ID)) = true
    · rw [if_pos hany] at h
      cases h
    · rw [if_neg hany] at h
      simp only [Except.ok.injEq, Prod.mk.injEq] at h
      obtain ⟨hrow, hs⟩ := h
      subst hrow
      refine ⟨rfl, ?_, hs.symm⟩
      intro r hr
      simp only [List.any_eq_true, decide_eq_true_eq, not_exists, not_and] at hany
      exact hany r hr

/-- A successful `UpdateAttendance` on the store replaces the rows with the
record's `ID` by the record. -/
theorem memRepo_UpdateAttendance_ok (b : Backend) (s s1 : Store) (a : Attendance)
    (h : (memRepo b).UpdateAttendance s a = .ok s1) :
    s1 = { s with attendances := s.attendances.map (fun r => if r.ID = a.ID then a else r) } := by
  simp only [memRepo] at h
  cases hf : b.fault .UpdateAttendance with
  | some err => simp [hf] at h
  | none =>
    simp only [hf, Except.ok.injEq] at h
    exact h.symm

/-- A successful `UpdateQRCode` on the store replaces the rows with the
record's `ID` by the record. -/
theorem memRepo_UpdateQRCode_ok (b : Backend) (s s1 : Store) (q : QRCode)
    (h : (memRepo b).UpdateQRCode s q = .ok s1) :
    s1 = { s with qrCodes := s.qrCodes.map (fun r => if r.ID = q.ID then q else r) } := by
  simp only [memRepo] at h
  cases hf : b.fault .UpdateQRCode with
  | some err => simp [hf] at h
  | none =>
    simp only [hf, Except.ok.injEq] at h
    exact h.symm

/-- A `CheckIn` that fails leaves the store as it was, on every repository. -/
theorem CheckIn_error_state {σ : Type} (repo : TimeRepository σ) (clk : Clock)
    (req : CheckInRequest) (s s1 : σ) (e : Error)
    (h : CheckIn repo clk req s = (.error e, s1)) : s1 = s := by
  cases hv : (ValidateQRCode repo clk.validate req.QRCode s).1 with
  | error err =>
    have hp : ValidateQRCode repo clk.validate req.QRCode s = (.error err, s) :=
      Prod.ext hv (ValidateQRCode_state repo _ _ s)
    simp only [CheckIn, hp, Prod.mk.injEq] at h
    exact h.2.symm
  | ok q =>
    have hp := ValidateQRCode_eq_of_ok repo _ _ s q hv
    simp only [CheckIn, hp] at h
    generalize (if Time.IsZero req.Timestamp = true then clk.stamp else req.Timestamp) = eff at h
    split_ifs at h with hin
    · simp only [Prod.mk.injEq] at h
      exact h.2.symm
    · revert h
      cases repo.CreateAttendance s _ with
      | error err =>
        intro h
        simp only [Prod.mk.injEq] at h
        exact h.2.symm
      | ok p =>
        obtain ⟨row, s2⟩ := p
        dsimp only
        cases repo.UpdateQRCode s2 _ with
        | error err => intro h; simp at h
        | ok s3 => intro h; simp at h

/-- What a successful `CheckIn` on the store did: the code validated, the
lookup of (employee, today) did not return a record with check-in set, the
returned record is the built record with its `Base` columns filled in (and
the work mode `office` when the request has none) and
is appended to the attendance table under a fresh `ID`, and the QR code
table is as it was or has the row of the code replaced by the record with
last-used set. -/
theorem CheckIn_ok (b : Backend) (clk : Clock) (req : CheckInRequest) (s s1 : Store)
    (a : Attendance) (h : CheckIn (memRepo b) clk req s = (.ok a, s1)) :
    ∃ q, (ValidateQRCode (memRepo b) clk.validate req.QRCode s).1 = .ok q ∧
      (∀ r, (memRepo b).GetAttendanceByDate s q.EmployeeID
          (Time.Truncate clk.today (24 * Hour)) = .ok r → r.CheckIn = none) ∧
      a = { toBase := Base.inserted b { ID := 0, CreatedAt := 0, UpdatedAt := 0 },
            OrganizationID := q.OrganizationID, EmployeeID := q.EmployeeID,
            CheckIn := some (if Time.IsZero req.Timestamp then clk.stamp else req.Timestamp),
            CheckOut := none, Date := Time.Truncate clk.today (24 * Hour),
            Status := AttendanceStatusPresent,
            WorkMode := if req.WorkMode = "" then WorkModeOffice else req.WorkMode,
            Location := req.Location, DeviceInfo := req.DeviceInfo } ∧
      (∀ r ∈ s.attendances, r.ID ≠ a.ID) ∧
      s1.attendances = s.attendances ++ [a] ∧ s1.timesheets = s.timesheets ∧
      (s1.qrCodes = s.qrCodes ∨
        s1.qrCodes = s.qrCodes.map (fun r =>
          if r.ID = q.ID then
            { q with
              LastUsed := some (if Time.IsZero req.Timestamp then clk.stamp else req.Timestamp) }
          else r)) := by
  cases hv : (ValidateQRCode (memRepo b) clk.validate req.QRCode s).1 with
  | error err =>
    have hp : ValidateQRCode (memRepo b) clk.validate req.QRCode s = (.error err, s) :=
      Prod.ext hv (ValidateQRCode_state _ _ _ s)
    simp [CheckIn, hp] at h
  | ok q =>
    refine ⟨q, rfl, ?_⟩
    have hp := ValidateQRCode_eq_of_ok _ _ _ s q hv
    simp only [CheckIn, hp] at h
    generalize (if Time.IsZero req.Timestamp = true then clk.stamp else req.Timestamp) = eff
      at h ⊢
    split_ifs at h with hin
    · simp at h
    refine ⟨?_, ?_⟩
    · intro r hr
      rw [hr] at hin
      simpa using hin
    · revert h
      cases hc : (memRepo b).CreateAttendance s
          { ID := 0, CreatedAt := 0, UpdatedAt := 0, OrganizationID := q.OrganizationID,
            EmployeeID := q.EmployeeID, CheckIn := some eff, CheckOut := none,
            Date := Time.Truncate clk.today (24 * Hour), Status := AttendanceStatusPresent,
            WorkMode := req.WorkMode, Location := req.Location,
            DeviceInfo := req.DeviceInfo } with
      | error err => intro h; simp at h
      | ok p =>
        obtain ⟨row, s2⟩ := p
        obtain ⟨hrow, hfresh, hs2⟩ := memRepo_CreateAttendance_ok b s s2 _ row hc
        have hstatus : (if AttendanceStatusPresent = "" then AttendanceStatusPresent
            else AttendanceStatusPresent) = AttendanceStatusPresent := ite_self _
        rw [hstatus] at hrow
        dsimp only
        cases hu : (memRepo b).UpdateQRCode s2 { q with LastUsed := some eff } with
        | error err =>
          intro h
          simp only [Prod.mk.injEq, Except.ok.injEq] at h
          obtain ⟨ha, hs⟩ := h
          subst ha hs
          refine ⟨hrow, hfresh, ?_, ?_, Or.inl ?_⟩ <;> rw [hs2]
        | ok s3 =>
          intro h
          simp only [Prod.mk.injEq, Except.ok.injEq] at h
          obtain ⟨ha, hs⟩ := h
          subst ha hs
          have hs3 := memRepo_UpdateQRCode_ok b s2 s3 _ hu
          refine ⟨hrow, hfresh, ?_, ?_, Or.inr ?_⟩ <;> rw [hs3, hs2]

/-- A record returned by the QR code lookup of the store is the first row
carrying the code. -/
theorem memRepo_GetQRCode_ok (b : Backend) (s : Store) (code : String) (q : QRCode)
    (h : (memRepo b).GetQRCode s code = .ok q) :
    s.qrCodes.find? (fun r => decide (r.Code = code)) = some q := by
  simp only [memRepo] at h
  cases hf : b.fault .GetQRCode with
  | some err => simp [hf] at h
  | none =>
    rw [hf] at h
    dsimp only at h
    cases hfind : s.qrCodes.find? (fun r => decide (r.Code = code)) with
    | none => rw [hfind] at h; cases h
    | some r =>
      rw [hfind] at h
      simp only [Except.ok.injEq] at h
      rw [h]

/-- After the last-used update of a validated record, the lookup of its code
still returns a record of the same employee: the QR code table is as it was,
or the rows with the record's `ID` were replaced by the record with another
last-used value. -/
theorem lookup_after_lastUsed (b : Backend) (s s1 : Store) (code : String) (q q2 : QRCode)
    (t : Option Time) (hq : s.qrCodes.find? (fun r => decide (r.Code = code)) = some q)
    (hs1 : s1.qrCodes = s.qrCodes ∨
      s1.qrCodes = s.qrCodes.map (fun r => if r.ID = q.ID then { q with LastUsed := t } else r))
    (h2 : (memRepo b).GetQRCode s1 code = .ok q2) :
    q2.EmployeeID = q.EmployeeID := by
  have hf2 := memRepo_GetQRCode_ok b s1 code q2 h2
  rcases hs1 with hs1 | hs1
  · rw [hs1, hq] at hf2
    simp only [Option.some.injEq] at hf2
    rw [← hf2]
  · have hp : (fun r : QRCode => decide (r.Code = code)) { q with LastUsed := t } = true := by
      have := List.find?_some hq
      simpa using this
    have hrep := find?_map_replace (fun r : QRCode => decide (r.Code = code))
      (fun r : QRCode => r.ID) s.qrCodes q { q with LastUsed := t } hq hp rfl
    rw [hs1] at hf2
    have heq : (some q2 : Option QRCode) = some { q with LastUsed := t } := by
      rw [← hf2]
      exact hrep
    simp only [Option.some.injEq] at heq
    rw [heq]

/-- C5: on every repository, when the presented code validates and the
attendance record of (employee of the code, today) exists with its check-in
set, `CheckIn` fails with "already checked in today" and leaves the store
as it was.  In particular, on the store: after a successful `CheckIn` (made
when every earlier row of that employee and day, if any, had its check-in
set), a second `CheckIn` with the same code, again valid, on the same day
and with its lookup answered by the table, fails with that error, leaves
the store as it was, and the first call's record is still in the table. -/
theorem CheckIn_already_checked_in :
    (∀ (σ : Type) (repo : TimeRepository σ) (clk : Clock) (req : CheckInRequest) (s : σ)
        (q : QRCode) (a : Attendance),
      (ValidateQRCode repo clk.validate req.QRCode s).1 = .ok q →
      repo.GetAttendanceByDate s q.EmployeeID (Time.Truncate clk.today (24 * Hour)) = .ok a →
      a.CheckIn ≠ none →
      CheckIn repo clk req s = (.error (.New "already checked in today"), s)) ∧
    (∀ (b1 b2 : Backend) (clk1 clk2 : Clock) (req1 req2 : CheckInRequest) (s s1 : Store)
        (a1 : Attendance) (q2 : QRCode),
      CheckIn (memRepo b1) clk1 req1 s = (.ok a1, s1) →
      (∀ r ∈ s.attendances, r.EmployeeID = a1.EmployeeID → r.Date = a1.Date →
        r.CheckIn ≠ none) →
      req2.QRCode = req1.QRCode →
      (ValidateQRCode (memRepo b2) clk2.validate req2.QRCode s1).1 = .ok q2 →
      Time.Truncate clk2.today (24 * Hour) = Time.Truncate clk1.today (24 * Hour) →
      b2.fault .GetAttendanceByDate = none →
      CheckIn (memRepo b2) clk2 req2 s1 = (.error (.New "already checked in today"), s1) ∧
      a1 ∈ s1.attendances) := by
  have partA : ∀ (σ : Type) (repo : TimeRepository σ) (clk : Clock) (req : CheckInRequest)
      (s : σ) (q : QRCode) (a : Attendance),
      (ValidateQRCode repo clk.validate req.QRCode s).1 = .ok q →
      repo.GetAttendanceByDate s q.EmployeeID (Time.Truncate clk.today (24 * Hour)) = .ok a →
      a.CheckIn ≠ none →
      CheckIn repo clk req s = (.error (.New "already checked in today"), s) := by
    intro σ repo clk req s q a hv hl ha
    have hp := ValidateQRCode_eq_of_ok repo _ _ s q hv
    have hsome : a.CheckIn.isSome = true := Option.isSome_iff_ne_none.mpr ha
    simp [CheckIn, hp, hl, hsome]
  refine ⟨partA, ?_⟩
  intro b1 b2 clk1 clk2 req1 req2 s s1 a1 q2 h1 hprev hcode hv2 hday hb2
  obtain ⟨q1, hv1, -, ha1, -, hatt, -, hqr⟩ := CheckIn_ok b1 clk1 req1 s s1 a1 h1
  have hemp1 : a1.EmployeeID = q1.EmployeeID := by rw [ha1]
  have hdate1 : a1.Date = Time.Truncate clk1.today (24 * Hour) := by rw [ha1]
  have hcin1 : a1.CheckIn ≠ none := by rw [ha1]; simp
  have hl1 := (ValidateQRCode_ok_lookup _ _ _ s q1 hv1).1
  have hl2 := (ValidateQRCode_ok_lookup _ _ _ s1 q2 hv2).1
  rw [hcode] at hl2
  have hemp2 : q2.EmployeeID = q1.EmployeeID :=
    lookup_after_lastUsed b2 s s1 req1.QRCode q1 q2 _
      (memRepo_GetQRCode_ok b1 s _ q1 hl1) hqr hl2
  have hmem : a1 ∈ s1.attendances := by rw [hatt]; simp
  refine ⟨?_, hmem⟩
  have hans := memRepo_GetAttendanceByDate_answered b2 s1 q2.EmployeeID
    (Time.Truncate clk2.today (24 * Hour)) hb2
  cases hfind : s1.attendances.find?
      (fun r => decide (r.EmployeeID = q2.EmployeeID ∧
        r.Date = Time.Truncate clk2.today (24 * Hour))) with
  | none =>
    rw [List.find?_eq_none] at hfind
    have := hfind a1 hmem
    simp [hemp1, hemp2, hdate1, hday] at this
  | some r =>
    rw [hfind] at hans
    have hr := List.find?_some hfind
    simp only [decide_eq_true_eq] at hr
    have hrmem := List.mem_of_find?_eq_some hfind
    rw [hatt, List.mem_append, List.mem_singleton] at hrmem
    have hrin : r.CheckIn ≠ none := by
      rcases hrmem with hold | hnew
      · exact hprev r hold (by rw [hr.1, hemp2, hemp1]) (by rw [hr.2, hday, hdate1])
      · rw [hnew]; exact hcin1
    exact partA Store (memRepo b2) clk2 req2 s1 q2 r hv2 hans hrin

/-- Witness for C5: `sampleCheckIn` succeeds on `sampleStore`; repeated at
instant 60 of the same day it fails and `checkedInStore` is left as it was. -/
theorem CheckIn_already_checked_in_witness :
    CheckIn (memRepo sampleBackend) sampleClock sampleCheckIn sampleStore
      = (.ok sampleAttendance, checkedInStore) ∧
    CheckIn (memRepo (Backend.reliable 12 60)) laterClock sampleCheckIn checkedInStore
      = (.error (.New "already checked in today"), checkedInStore) ∧
    sampleAttendance ∈ checkedInStore.attendances :=
  ⟨by decide,
   CheckIn_already_checked_in.1 Store (memRepo (Backend.reliable 12 60)) laterClock
     sampleCheckIn checkedInStore { sampleQR with LastUsed := some 50 } sampleAttendance
     (by decide) (by decide) (by decide),
   (CheckIn_already_checked_in.2 sampleBackend (Backend.reliable 12 60) sampleClock laterClock
     sampleCheckIn sampleCheckIn sampleStore checkedInStore sampleAttendance
     { sampleQR with LastUsed := some 50 } (by decide) (by decide) rfl (by decide)
     (by decide) rfl).2⟩

/-! ## Attendance: a successful check-in -/

/-- Truncating to 24 hours is rounding down to a multiple of a day. -/
theorem Truncate_day (t : Time) :
    Time.Truncate t (24 * Hour) = t - t % 86400000000000 := by
  simp only [Time.Truncate, Hour]
  norm_num

/-- Counterexample for C6: a check-in whose request has an empty work mode
succeeds on `sampleStore` and returns and stores `sampleAttendance`, whose
work mode is "office", the default of the column, not the work mode of the
request. -/
theorem empty_work_mode_stored_as_office :
    CheckIn (timeRepository sampleBackend) sampleClock
        { sampleCheckIn with WorkMode := "" } sampleStore
      = (.ok sampleAttendance, { sampleStore with attendances := [sampleAttendance] }) ∧
    sampleAttendance.WorkMode = "office" ∧
    sampleAttendance.WorkMode ≠ ({ sampleCheckIn with WorkMode := "" } : CheckInRequest).WorkMode := by
  decide

/-- C6 (amended): a successful `CheckIn` appends exactly one new row to the
attendance table and returns it: its organization and employee are those of
the validated QR code record, its status is "present", its work mode is the
request's, or "office" when the request's work mode is empty, its location
and device info are the request's, its check-out is unset, its check-in is
the request timestamp if that is not the zero time and the clock reading
otherwise, and its date is the clock reading for today rounded down to the
day, whatever day the request timestamp lies on. -/
theorem CheckIn_creates (b : Backend) (clk : Clock) (req : CheckInRequest) (s s1 : Store)
    (a : Attendance) (h : CheckIn (timeRepository b) clk req s = (.ok a, s1)) :
    ∃ q, (ValidateQRCode (timeRepository b) clk.validate req.QRCode s).1 = .ok q ∧
      a.OrganizationID = q.OrganizationID ∧ a.EmployeeID = q.EmployeeID ∧
      a.Status = "present" ∧
      a.WorkMode = (if req.WorkMode = "" then "office" else req.WorkMode) ∧
      a.Location = req.Location ∧
      a.DeviceInfo = req.DeviceInfo ∧ a.CheckOut = none ∧
      a.CheckIn = some (if req.Timestamp = 0 then clk.stamp else req.Timestamp) ∧
      a.Date = clk.today - clk.today % 86400000000000 ∧
      s1.attendances = s.attendances ++ [a] ∧
      (∀ r ∈ s.attendances, r.ID ≠ a.ID) := by
  rw [timeRepository_eq] at h ⊢
  obtain ⟨q, hv, -, ha, hfresh, hatt, -, -⟩ := CheckIn_ok b.gorm clk req s s1 a h
  refine ⟨q, hv, ?_, ?_, ?_, ?_, ?_, ?_, ?_, ?_, ?_, hatt, hfresh⟩
  · rw [ha]
  · rw [ha]
  · rw [ha]; rfl
  · rw [ha]; rfl
  · rw [ha]
  · rw [ha]
  · rw [ha]
  · rw [ha]
    by_cases hz : req.Timestamp = 0 <;> simp [Time.IsZero, hz]
  · rw [ha]
    exact Truncate_day clk.today

/-- Witness for C6 (amended): a remote check-in at instant 50 (day 0)
carrying a timestamp on day 5 is stored with that timestamp as check-in,
with date day 0 and with work mode "remote". -/
theorem CheckIn_creates_witness :
    ∃ a s1, CheckIn (timeRepository sampleBackend) sampleClock
        { sampleCheckIn with Timestamp := 5 * 86400000000000 + 7, WorkMode := "remote" }
        sampleStore = (.ok a, s1) ∧
      a.CheckIn = some (5 * 86400000000000 + 7) ∧ a.Date = 0 ∧ a.Status = "present" ∧
      a.WorkMode = "remote" ∧ s1.attendances = [a] :=
  ⟨{ sampleAttendance with CheckIn := some (5 * 86400000000000 + 7), WorkMode := "remote" },
   { sampleStore with
     attendances :=
       [{ sampleAttendance with CheckIn := some (5 * 86400000000000 + 7),
                                WorkMode := "remote" }] },
   by decide, by decide, by decide, by decide, by decide,
   (CheckIn_creates sampleBackend sampleClock
     { sampleCheckIn with Timestamp := 5 * 86400000000000 + 7, WorkMode := "remote" }
     sampleStore _ _ (by decide)).choose_spec.2.2.2.2.2.2.2.2.2.2.1⟩

/-! ## Attendance: check-out -/

/-- What a `CheckOut` on the store did.  Either the store is as it was and
the call failed; or the code validated, the lookup of (employee, today)
returned a record `a` with check-out unset, the rows with the `ID` of `a`
were replaced by `a` with the new check-out, location and device info, and
then the last-used update either failed (the call fails, the QR code table
is as it was) or replaced the rows with the `ID` of the code's record (the
call returns the updated record). -/
theorem CheckOut_cases (b : Backend) (clk : Clock) (req : CheckOutRequest) (s s1 : Store)
    (res : Except Error Attendance) (h : CheckOut (memRepo b) clk req s = (res, s1)) :
    (s1 = s ∧ ∃ e, res = .error e) ∨
    ∃ q a r, (ValidateQRCode (memRepo b) clk.validate req.QRCode s).1 = .ok q ∧
      (memRepo b).GetAttendanceByDate s q.EmployeeID
        (Time.Truncate clk.today (24 * Hour)) = .ok a ∧
      a.CheckOut = none ∧
      r = { a with
            CheckOut := some (if Time.IsZero req.Timestamp then clk.stamp else req.Timestamp),
            Location := req.Location, DeviceInfo := req.DeviceInfo } ∧
      s1.attendances = s.attendances.map (fun x => if x.ID = a.ID then r else x) ∧
      s1.timesheets = s.timesheets ∧
      (((∃ e, res = .error e) ∧ s1.qrCodes = s.qrCodes) ∨
        (res = .ok r ∧
          s1.qrCodes = s.qrCodes.map (fun x =>
            if x.ID = q.ID then
              { q with
                LastUsed :=
                  some (if Time.IsZero req.Timestamp then clk.stamp else req.Timestamp) }
            else x))) := by
  cases hv : (ValidateQRCode (memRepo b) clk.validate req.QRCode s).1 with
  | error err =>
    have hp : ValidateQRCode (memRepo b) clk.validate req.QRCode s = (.error err, s) :=
      Prod.ext hv (ValidateQRCode_state _ _ _ s)
    simp only [CheckOut, hp, Prod.mk.injEq] at h
    exact Or.inl ⟨h.2.symm, err, h.1.symm⟩
  | ok q =>
    have hp := ValidateQRCode_eq_of_ok _ _ _ s q hv
    simp only [CheckOut, hp] at h
    generalize (if Time.IsZero req.Timestamp = true then clk.stamp else req.Timestamp) = eff
      at h ⊢
    cases hl : (memRepo b).GetAttendanceByDate s q.EmployeeID
        (Time.Truncate clk.today (24 * Hour)) with
    | error err =>
      simp only [hl, Prod.mk.injEq] at h
      exact Or.inl ⟨h.2.symm, _, h.1.symm⟩
    | ok a =>
      simp only [hl] at h
      split_ifs at h with hout
      · simp only [Prod.mk.injEq] at h
        exact Or.inl ⟨h.2.symm, _, h.1.symm⟩
      · have hnone : a.CheckOut = none := by simpa using hout
        revert h
        cases hu : (memRepo b).UpdateAttendance s
            { a with CheckOut := some eff, Location := req.Location,
                     DeviceInfo := req.DeviceInfo } with
        | error err =>
          intro h
          simp only [Prod.mk.injEq] at h
          exact Or.inl ⟨h.2.symm, _, h.1.symm⟩
        | ok s2 =>
          have hs2 := memRepo_UpdateAttendance_ok b s s2 _ hu
          dsimp only
          cases hq : (memRepo b).UpdateQRCode s2 { q with LastUsed := some eff } with
          | error err =>
            intro h
            simp only [Prod.mk.injEq] at h
            obtain ⟨hres, hs⟩ := h
            subst hres hs
            refine Or.inr ⟨q, a, _, rfl, hl, hnone, rfl, ?_, ?_, Or.inl ⟨⟨err, rfl⟩, ?_⟩⟩ <;>
              rw [hs2]
          | ok s3 =>
            have hs3 := memRepo_UpdateQRCode_ok b s2 s3 _ hq
            intro h
            simp only [Prod.mk.injEq] at h
            obtain ⟨hres, hs⟩ := h
            subst hres hs
            refine Or.inr ⟨q, a, _, rfl, hl, hnone, rfl, ?_, ?_, Or.inr ⟨rfl, ?_⟩⟩ <;>
              rw [hs3, hs2]

/-- C7: on every repository, when the presented code validates and the
lookup of the attendance record of (employee of the code, today) fails,
`CheckOut` fails with "no check-in record found for today" and leaves the
store as it was; on the store the lookup fails whenever no row of that
employee and day exists, so there `CheckOut` fails that way and no table
changes. -/
theorem CheckOut_no_check_in :
    (∀ (σ : Type) (repo : TimeRepository σ) (clk : Clock) (req : CheckOutRequest) (s : σ)
        (q : QRCode) (e : Error),
      (ValidateQRCode repo clk.validate req.QRCode s).1 = .ok q →
      repo.GetAttendanceByDate s q.EmployeeID (Time.Truncate clk.today (24 * Hour))
        = .error e →
      CheckOut repo clk req s = (.error (.New "no check-in record found for today"), s)) ∧
    (∀ (b : Backend) (clk : Clock) (req : CheckOutRequest) (s : Store) (q : QRCode),
      (ValidateQRCode (memRepo b) clk.validate req.QRCode s).1 = .ok q →
      (∀ r ∈ s.attendances,
        ¬ (r.EmployeeID = q.EmployeeID ∧ r.Date = Time.Truncate clk.today (24 * Hour))) →
      CheckOut (memRepo b) clk req s
        = (.error (.New "no check-in record found for today"), s)) := by
  have partA : ∀ (σ : Type) (repo : TimeRepository σ) (clk : Clock) (req : CheckOutRequest)
      (s : σ) (q : QRCode) (e : Error),
      (ValidateQRCode repo clk.validate req.QRCode s).1 = .ok q →
      repo.GetAttendanceByDate s q.EmployeeID (Time.Truncate clk.today (24 * Hour))
        = .error e →
      CheckOut repo clk req s
        = (.error (.New "no check-in record found for today"), s) := by
    intro σ repo clk req s q e hv hl
    have hp := ValidateQRCode_eq_of_ok repo _ _ s q hv
    simp [CheckOut, hp, hl]
  refine ⟨partA, ?_⟩
  intro b clk req s q hv hnone
  cases hl : (memRepo b).GetAttendanceByDate s q.EmployeeID
      (Time.Truncate clk.today (24 * Hour)) with
  | error e => exact partA Store (memRepo b) clk req s q e hv hl
  | ok a =>
    have hfind := memRepo_GetAttendanceByDate_ok b s _ _ a hl
    have hp := List.find?_some hfind
    simp only [decide_eq_true_eq] at hp
    exact absurd hp (hnone a (List.mem_of_find?_eq_some hfind))

/-- Witness for C7: `sampleCheckOut` on `sampleStore`, which has no
attendance row, fails and leaves `sampleStore` as it was. -/
theorem CheckOut_no_check_in_witness :
    CheckOut (memRepo sampleBackend) sampleClock sampleCheckOut sampleStore
      = (.error (.New "no check-in record found for today"), sampleStore) ∧
    CheckOut (memRepo sampleBackend) laterClock sampleCheckOut sampleStore
      = (.error (.New "no check-in record found for today"), sampleStore) :=
  ⟨CheckOut_no_check_in.1 Store (memRepo sampleBackend) sampleClock sampleCheckOut sampleStore
     sampleQR .RecordNotFound (by decide) (by decide),
   CheckOut_no_check_in.2 sampleBackend laterClock sampleCheckOut sampleStore sampleQR
     (by decide) (by decide)⟩

/-- C8: on every repository, when the presented code validates and today's
attendance record of the employee already has its check-out set, `CheckOut`
fails with "already checked out today" and leaves the store as it was.  In
particular, on the store: after a successful `CheckOut`, a second `CheckOut`
with the same code, again valid, on the same day and with its lookup
answered by the table, fails with that error and leaves the store as it
was, so the row still carries the first call's check-out, location and
device info. -/
theorem CheckOut_already_checked_out :
    (∀ (σ : Type) (repo : TimeRepository σ) (clk : Clock) (req : CheckOutRequest) (s : σ)
        (q : QRCode) (a : Attendance),
      (ValidateQRCode repo clk.validate req.QRCode s).1 = .ok q →
      repo.GetAttendanceByDate s q.EmployeeID (Time.Truncate clk.today (24 * Hour)) = .ok a →
      a.CheckOut ≠ none →
      CheckOut repo clk req s = (.error (.New "already checked out today"), s)) ∧
    (∀ (b1 b2 : Backend) (clk1 clk2 : Clock) (req1 req2 : CheckOutRequest) (s s1 : Store)
        (a1 : Attendance) (q2 : QRCode),
      CheckOut (memRepo b1) clk1 req1 s = (.ok a1, s1) →
      req2.QRCode = req1.QRCode →
      (ValidateQRCode (memRepo b2) clk2.validate req2.QRCode s1).1 = .ok q2 →
      Time.Truncate clk2.today (24 * Hour) = Time.Truncate clk1.today (24 * Hour) →
      b2.fault .GetAttendanceByDate = none →
      CheckOut (memRepo b2) clk2 req2 s1
        = (.error (.New "already checked out today"), s1) ∧
      a1 ∈ s1.attendances ∧
      a1.CheckOut = some (if req1.Timestamp = 0 then clk1.stamp else req1.Timestamp) ∧
      a1.Location = req1.Location ∧ a1.DeviceInfo = req1.DeviceInfo) := by
  have partA : ∀ (σ : Type) (repo : TimeRepository σ) (clk : Clock) (req : CheckOutRequest)
      (s : σ) (q : QRCode) (a : Attendance),
      (ValidateQRCode repo clk.validate req.QRCode s).1 = .ok q →
      repo.GetAttendanceByDate s q.EmployeeID (Time.Truncate clk.today (24 * Hour)) = .ok a →
      a.CheckOut ≠ none →
      CheckOut repo clk req s = (.error (.New "already checked out today"), s) := by
    intro σ repo clk req s q a hv hl ha
    have hp := ValidateQRCode_eq_of_ok repo _ _ s q hv
    have hsome : a.CheckOut.isSome = true := Option.isSome_iff_ne_none.mpr ha
    simp [CheckOut, hp, hl, hsome]
  refine ⟨partA, ?_⟩
  intro b1 b2 clk1 clk2 req1 req2 s s1 a1 q2 h1 hcode hv2 hday hb2
  rcases CheckOut_cases b1 clk1 req1 s s1 _ h1 with ⟨-, e, he⟩ | hcase
  · cases he
  obtain ⟨q1, a, r, hv1, hl1, -, hr, hatt, -, hres⟩ := hcase
  rcases hres with ⟨⟨e, he⟩, -⟩ | ⟨hok, hqr⟩
  · cases he
  simp only [Except.ok.injEq] at hok
  subst hok
  have hfind1 := memRepo_GetAttendanceByDate_ok b1 s _ _ a hl1
  have hpa := List.find?_some hfind1
  simp only [decide_eq_true_eq] at hpa
  have hgl1 := (ValidateQRCode_ok_lookup _ _ _ s q1 hv1).1
  have hgl2 := (ValidateQRCode_ok_lookup _ _ _ s1 q2 hv2).1
  rw [hcode] at hgl2
  have hemp2 : q2.EmployeeID = q1.EmployeeID :=
    lookup_after_lastUsed b2 s s1 req1.QRCode q1 q2 _
      (memRepo_GetQRCode_ok b1 s _ q1 hgl1) (Or.inr hqr) hgl2
  have hp1 : (fun x : Attendance => decide (x.EmployeeID = q1.EmployeeID ∧
      x.Date = Time.Truncate clk1.today (24 * Hour))) a1 = true := by
    rw [hr]
    simpa using hpa
  have hrep := find?_map_replace
    (fun x : Attendance => decide (x.EmployeeID = q1.EmployeeID ∧
      x.Date = Time.Truncate clk1.today (24 * Hour)))
    (fun x : Attendance => x.ID) s.attendances a a1 hfind1 hp1 (by rw [hr])
  have hid : a1.ID = a.ID := by rw [hr]
  beta_reduce at hrep
  rw [hid, ← hatt] at hrep
  have hans := memRepo_GetAttendanceByDate_answered b2 s1 q2.EmployeeID
    (Time.Truncate clk2.today (24 * Hour)) hb2
  rw [hemp2, hday, hrep] at hans
  have hout : a1.CheckOut ≠ none := by rw [hr]; simp
  refine ⟨?_, List.mem_of_find?_eq_some hrep, ?_, by rw [hr], by rw [hr]⟩
  · rw [← hemp2, ← hday] at hans
    exact partA Store (memRepo b2) clk2 req2 s1 q2 a1 hv2 hans hout
  · rw [hr]
    by_cases hz : req1.Timestamp = 0 <;> simp [Time.IsZero, hz]

/-- Witness for C8: `sampleCheckOut` succeeds on `checkedInStore` at instant
60; repeated, it fails and `checkedOutStore` is left as it was. -/
theorem CheckOut_already_checked_out_witness :
    CheckOut (memRepo sampleBackend) laterClock sampleCheckOut checkedInStore
      = (.ok sampleCheckedOut, checkedOutStore) ∧
    CheckOut (memRepo sampleBackend) laterClock
        { sampleCheckOut with Location := "roof" } checkedOutStore
      = (.error (.New "already checked out today"), checkedOutStore) ∧
    sampleCheckedOut ∈ checkedOutStore.attendances :=
  ⟨by decide,
   CheckOut_already_checked_out.1 Store (memRepo sampleBackend) laterClock
     { sampleCheckOut with Location := "roof" } checkedOutStore
     { sampleQR with LastUsed := some 60 } sampleCheckedOut (by decide) (by decide) (by decide),
   (CheckOut_already_checked_out.2 sampleBackend sampleBackend laterClock laterClock
     sampleCheckOut { sampleCheckOut with Location := "roof" } checkedInStore checkedOutStore
     sampleCheckedOut { sampleQR with LastUsed := some 60 } (by decide) rfl (by decide) rfl
     rfl).2.1⟩

/-- Over `timeRepository` every `CheckOut` fails and leaves the store as it
was: it stops at the code, at the lookup or at the check-out already set, or
its `UpdateAttendance` is refused. -/
theorem CheckOut_refused (b : Backend) (clk : Clock) (req : CheckOutRequest) (s : Store) :
    ∃ e, CheckOut (timeRepository b) clk req s = (.error e, s) := by
  cases hv : (ValidateQRCode (timeRepository b) clk.validate req.QRCode s).1 with
  | error err =>
    have hp : ValidateQRCode (timeRepository b) clk.validate req.QRCode s = (.error err, s) :=
      Prod.ext hv (ValidateQRCode_state _ _ _ s)
    exact ⟨err, by simp only [CheckOut, hp]⟩
  | ok q =>
    have hp := ValidateQRCode_eq_of_ok _ _ _ s q hv
    simp only [CheckOut, hp]
    cases hl : (timeRepository b).GetAttendanceByDate s q.EmployeeID
        (Time.Truncate clk.today (24 * Hour)) with
    | error err => exact ⟨_, rfl⟩
    | ok a =>
      dsimp only
      by_cases hout : a.CheckOut.isSome = true
      · rw [if_pos hout]
        exact ⟨_, rfl⟩
      · rw [if_neg hout]
        exact ⟨ErrMissingWhereClause, rfl⟩

/-- Over `timeRepository`, when the presented code validates and today's
attendance record of the employee exists with check-out unset, `CheckOut`
fails with `ErrMissingWhereClause`, the error of `UpdateAttendance`, and the
store is as it was. -/
theorem CheckOut_update_error (b : Backend) (clk : Clock) (req : CheckOutRequest) (s : Store)
    (q : QRCode) (a : Attendance)
    (hv : (ValidateQRCode (timeRepository b) clk.validate req.QRCode s).1 = .ok q)
    (hl : (timeRepository b).GetAttendanceByDate s q.EmployeeID
      (Time.Truncate clk.today (24 * Hour)) = .ok a)
    (hnone : a.CheckOut = none) :
    CheckOut (timeRepository b) clk req s = (.error ErrMissingWhereClause, s) := by
  have hp := ValidateQRCode_eq_of_ok _ _ _ s q hv
  have hout : ¬ a.CheckOut.isSome = true := by rw [hnone]; simp
  simp only [CheckOut, hp, hl]
  rw [if_neg hout]
  rfl

/-- C9, on the code: no `CheckOut` returns a record or writes one.  For every
backend, clock, request and store, `CheckOut` over `timeRepository` fails and
leaves the store as it was.  In particular, right after the successful
`sampleCheckIn` on `sampleStore`, `sampleCheckOut` with the same code on the
same day fails with "WHERE conditions required", the error of
`UpdateAttendance`, and the row of the employee still has its check-out
unset. -/
theorem CheckOut_never_persists :
    (∀ (b : Backend) (clk : Clock) (req : CheckOutRequest) (s : Store),
      ∃ e, CheckOut (timeRepository b) clk req s = (.error e, s)) ∧
    CheckIn (timeRepository sampleBackend) sampleClock sampleCheckIn sampleStore
      = (.ok sampleAttendance, servedStore) ∧
    CheckOut (timeRepository sampleBackend) laterClock sampleCheckOut servedStore
      = (.error (.Storage "WHERE conditions required"), servedStore) ∧
    servedStore.attendances = [sampleAttendance] ∧ sampleAttendance.CheckOut = none :=
  ⟨CheckOut_refused, by decide, by decide, by decide, by decide⟩

/-! ## Attendance: one row per employee and day -/

/-- A `CheckIn` on the store keeps `AttendanceInv`, when its attendance lookup
is answered by the table. -/
theorem CheckIn_preserves (b : Backend) (clk : Clock) (req : CheckInRequest) (s : Store)
    (hb : b.fault .GetAttendanceByDate = none) (hinv : AttendanceInv s.attendances) :
    AttendanceInv (CheckIn (memRepo b) clk req s).2.attendances := by
  rcases hres : CheckIn (memRepo b) clk req s with ⟨res, s1⟩
  cases res with
  | error e =>
    rw [CheckIn_error_state _ _ _ s s1 e hres]
    exact hinv
  | ok a =>
    obtain ⟨q, -, hlook, ha, hfresh, hatt, -, -⟩ := CheckIn_ok b clk req s s1 a hres
    obtain ⟨hids, hday, hcin⟩ := hinv
    have hemp : a.EmployeeID = q.EmployeeID := by rw [ha]
    have hdate : a.Date = Time.Truncate clk.today (24 * Hour) := by rw [ha]
    have hnomatch : ∀ r ∈ s.attendances,
        ¬ (r.EmployeeID = a.EmployeeID ∧ r.Date = a.Date) := by
      intro r hr hmatch
      have hans := memRepo_GetAttendanceByDate_answered b s q.EmployeeID
        (Time.Truncate clk.today (24 * Hour)) hb
      cases hfind : s.attendances.find? (fun x => decide (x.EmployeeID = q.EmployeeID ∧
          x.Date = Time.Truncate clk.today (24 * Hour))) with
      | none =>
        rw [List.find?_eq_none] at hfind
        have := hfind r hr
        simp only [decide_eq_true_eq] at this
        exact this (by rw [← hemp, ← hdate]; exact hmatch)
      | some r0 =>
        rw [hfind] at hans
        exact hcin r0 (List.mem_of_find?_eq_some hfind) (hlook r0 hans)
    show AttendanceInv s1.attendances
    rw [hatt]
    refine ⟨?_, ?_, ?_⟩
    · rw [List.map_append, List.nodup_append]
      refine ⟨hids, by simp, ?_⟩
      intro i hi hi2
      simp only [List.map_cons, List.map_nil, List.mem_singleton] at hi2
      obtain ⟨r, hr, hri⟩ := List.mem_map.mp hi
      exact hfresh r hr (by rw [hri, hi2])
    · unfold OnePerDay
      rw [List.pairwise_append]
      refine ⟨hday, by simp, ?_⟩
      intro x hx y hy
      rw [List.mem_singleton] at hy
      rw [hy]
      exact hnomatch x hx
    · intro r hr
      rw [List.mem_append, List.mem_singleton] at hr
      rcases hr with hr | hr
      · exact hcin r hr
      · rw [hr, ha]; simp

/-- A `CheckOut` on the store keeps `AttendanceInv`. -/
theorem CheckOut_preserves (b : Backend) (clk : Clock) (req : CheckOutRequest) (s : Store)
    (hinv : AttendanceInv s.attendances) :
    AttendanceInv (CheckOut (memRepo b) clk req s).2.attendances := by
  rcases hres : CheckOut (memRepo b) clk req s with ⟨res, s1⟩
  show AttendanceInv s1.attendances
  rcases CheckOut_cases b clk req s s1 res hres with ⟨hs, -⟩ | hcase
  · rw [hs]; exact hinv
  obtain ⟨q, a, r, -, hl, -, hr, hatt, -, -⟩ := hcase
  obtain ⟨hids, hday, hcin⟩ := hinv
  have hmem : a ∈ s.attendances :=
    List.mem_of_find?_eq_some (memRepo_GetAttendanceByDate_ok b s _ _ a hl)
  have hsame : ∀ x ∈ s.attendances, x.ID = a.ID → x = a :=
    fun x hx hid => List.inj_on_of_nodup_map hids hx hmem hid
  have hkeep : ∀ x ∈ s.attendances,
      (if x.ID = a.ID then r else x).ID = x.ID ∧
      (if x.ID = a.ID then r else x).EmployeeID = x.EmployeeID ∧
      (if x.ID = a.ID then r else x).Date = x.Date ∧
      (if x.ID = a.ID then r else x).CheckIn = x.CheckIn := by
    intro x hx
    by_cases hid : x.ID = a.ID
    · have hxa := hsame x hx hid
      rw [if_pos hid, hxa, hr]
      exact ⟨rfl, rfl, rfl, rfl⟩
    · rw [if_neg hid]
      exact ⟨rfl, rfl, rfl, rfl⟩
  rw [hatt]
  refine ⟨?_, ?_, ?_⟩
  · rw [List.map_map]
    have : List.map ((fun x : Attendance => x.ID) ∘ fun x => if x.ID = a.ID then r else x)
        s.attendances = List.map (fun x => x.ID) s.attendances :=
      List.map_congr_left (fun x hx => (hkeep x hx).1)
    rw [this]
    exact hids
  · unfold OnePerDay
    rw [List.pairwise_map]
    refine List.Pairwise.imp_of_mem ?_ hday
    intro x y hx hy hxy
    rw [(hkeep x hx).2.1, (hkeep x hx).2.2.1, (hkeep y hy).2.1, (hkeep y hy).2.2.1]
    exact hxy
  · intro y hy
    obtain ⟨x, hx, hxy⟩ := List.mem_map.mp hy
    rw [← hxy, (hkeep x hx).2.2.2]
    exact hcin x hx

/-- Sequential calls over `timeRepository` keep `AttendanceInv`, when the
attendance lookup of every `CheckIn` is answered by the table. -/
theorem serveCalls_preserves (calls : List Call) (s : Store)
    (hcalls : ∀ c ∈ calls, c.lookupAnswered) (hinv : AttendanceInv s.attendances) :
    AttendanceInv (serveCalls s calls).attendances := by
  induction calls generalizing s with
  | nil => exact hinv
  | cons c cs ih =>
    have hc := hcalls c (List.mem_cons_self c cs)
    have hcs : ∀ d ∈ cs, d.lookupAnswered := fun d hd => hcalls d (List.mem_cons_of_mem c hd)
    show AttendanceInv (serveCalls (c.serve s) cs).attendances
    apply ih (c.serve s) hcs
    cases c with
    | checkIn b clk req =>
      show AttendanceInv (CheckIn (timeRepository b) clk req s).2.attendances
      rw [timeRepository_eq]
      exact CheckIn_preserves b.gorm clk req s hc hinv
    | checkOut b clk req =>
      show AttendanceInv (CheckOut (timeRepository b) clk req s).2.attendances
      rw [timeRepository_eq]
      exact CheckOut_preserves b.gorm clk req s hinv

/-- Starting from a store whose attendance table is empty, after any sequence of `CheckIn` and `CheckOut`
calls over `timeRepository` in which the attendance lookup of every
`CheckIn` is answered by the table, no two rows of the attendance table
share (employee, date). -/
theorem one_per_day_when_lookups_answered (s : Store) (calls : List Call)
    (hempty : s.attendances = []) (hcalls : ∀ c ∈ calls, c.lookupAnswered) :
    OnePerDay (serveCalls s calls).attendances := by
  have hinv : AttendanceInv s.attendances := by
    rw [hempty]
    exact ⟨by simp, by simp [OnePerDay], by simp⟩
  exact (serveCalls_preserves calls s hcalls hinv).2.1

/-- C10, on the code: starting from `sampleStore`, whose attendance table is
empty, `sampleCheckIn` at instant 50 followed by the same request at instant
60 of the same day, when the attendance lookup of the second call fails with
a storage error, leaves two rows for employee 7 on day 0: `CheckIn` reads
the failed lookup as "no record" (line 115) and inserts again.  `CheckOut`,
which makes the same lookup, stops at the failure and writes nothing. -/
theorem second_row_after_failed_lookup :
    (serveCalls sampleStore failedLookupCalls).attendances
      = [sampleAttendance, secondAttendance] ∧
    sampleAttendance.EmployeeID = secondAttendance.EmployeeID ∧
    sampleAttendance.Date = secondAttendance.Date ∧
    ¬ OnePerDay (serveCalls sampleStore failedLookupCalls).attendances ∧
    (timeRepository lookupFailing).GetAttendanceByDate servedStore 7 0
      = .error (.Storage "timeout") ∧
    CheckOut (timeRepository lookupFailing) laterClock sampleCheckOut servedStore
      = (.error (.New "no check-in record found for today"), servedStore) := by
  have h : (serveCalls sampleStore failedLookupCalls).attendances
      = [sampleAttendance, secondAttendance] := by decide
  refine ⟨h, by decide, by decide, ?_, by decide, by decide⟩
  rw [h]
  intro hp
  rw [OnePerDay, List.pairwise_cons] at hp
  exact hp.1 secondAttendance (List.mem_singleton.mpr rfl) ⟨by decide, by decide⟩

/-! ## Attendance: check-out and check-in timestamps -/

/-- C12: on every repository, when `ValidateQRCode` fails for the presented
code (unknown, inactive or expired), `CheckIn` and `CheckOut` each fail with
exactly that failure and leave the store as it was; in particular a code
whose record is inactive, or expired at the clock reading, makes both fail
with "QR code is inactive" or "QR code has expired" and nothing is written. -/
theorem invalid_code_propagates {σ : Type} (repo : TimeRepository σ) (clk : Clock) (s : σ) :
    (∀ (code : String) (e : Error),
      (ValidateQRCode repo clk.validate code s).1 = .error e →
      (∀ req : CheckInRequest, req.QRCode = code → CheckIn repo clk req s = (.error e, s)) ∧
      (∀ req : CheckOutRequest, req.QRCode = code →
        CheckOut repo clk req s = (.error e, s))) ∧
    (∀ (code : String) (q : QRCode), repo.GetQRCode s code = .ok q →
      (q.IsActive = false ∨ ∃ expiry, q.ExpiryDate = some expiry ∧ expiry < clk.validate) →
      ∃ e, (e = .New "QR code is inactive" ∨ e = .New "QR code has expired") ∧
        (∀ req : CheckInRequest, req.QRCode = code → CheckIn repo clk req s = (.error e, s)) ∧
        (∀ req : CheckOutRequest, req.QRCode = code →
          CheckOut repo clk req s = (.error e, s))) := by
  have partA : ∀ (code : String) (e : Error),
      (ValidateQRCode repo clk.validate code s).1 = .error e →
      (∀ req : CheckInRequest, req.QRCode = code → CheckIn repo clk req s = (.error e, s)) ∧
      (∀ req : CheckOutRequest, req.QRCode = code →
        CheckOut repo clk req s = (.error e, s)) := by
    intro code e hv
    have hp : ValidateQRCode repo clk.validate code s = (.error e, s) :=
      Prod.ext hv (ValidateQRCode_state repo _ _ s)
    refine ⟨?_, ?_⟩
    · intro req hreq
      simp only [CheckIn, hreq, hp]
    · intro req hreq
      simp only [CheckOut, hreq, hp]
  refine ⟨partA, ?_⟩
  intro code q hq hbad
  by_cases hact : q.IsActive = false
  · refine ⟨.New "QR code is inactive", Or.inl rfl, partA code _ ?_⟩
    simp [ValidateQRCode, hq, hact]
  · have hact2 : q.IsActive = true := by simpa using hact
    rcases hbad with hin | ⟨expiry, hexp, hlt⟩
    · exact absurd hin hact
    · refine ⟨.New "QR code has expired", Or.inr rfl, partA code _ ?_⟩
      simp [ValidateQRCode, hq, hact2, hexp, Time.After, hlt]

/-- Witness for C12: at instant 101 the code of `sampleQR`, which expired at
100, makes `CheckIn` and `CheckOut` fail with "QR code has expired" and
leave `checkedInStore` as it was. -/
theorem invalid_code_propagates_witness :
    CheckIn (memRepo sampleBackend) { validate := 101, stamp := 101, today := 101 }
        sampleCheckIn checkedInStore
      = (.error (.New "QR code has expired"), checkedInStore) ∧
    CheckOut (memRepo sampleBackend) { validate := 101, stamp := 101, today := 101 }
        sampleCheckOut checkedInStore
      = (.error (.New "QR code has expired"), checkedInStore) :=
  ⟨((invalid_code_propagates (memRepo sampleBackend)
        { validate := 101, stamp := 101, today := 101 } checkedInStore).1 "abc"
        (.New "QR code has expired") (by decide)).1 sampleCheckIn rfl,
   ((invalid_code_propagates (memRepo sampleBackend)
        { validate := 101, stamp := 101, today := 101 } checkedInStore).1 "abc"
        (.New "QR code has expired") (by decide)).2 sampleCheckOut rfl⟩

/-- C13: on every repository, once `CheckIn` has created the attendance
record, a failure of the last-used update of the QR code is not returned:
`CheckIn` returns the created record without an error and leaves the store
as the create left it.  On the store the created record is then in the
attendance table and the QR code table is as it was before the call. -/
theorem CheckIn_swallows_update_failure :
    (∀ (σ : Type) (repo : TimeRepository σ) (clk : Clock) (req : CheckInRequest) (s s1 : σ)
        (q : QRCode) (a : Attendance) (e : Error),
      (ValidateQRCode repo clk.validate req.QRCode s).1 = .ok q →
      (∀ r, repo.GetAttendanceByDate s q.EmployeeID (Time.Truncate clk.today (24 * Hour))
        = .ok r → r.CheckIn = none) →
      repo.CreateAttendance s
        { ID := 0, CreatedAt := 0, UpdatedAt := 0, OrganizationID := q.OrganizationID,
          EmployeeID := q.EmployeeID,
          CheckIn := some (if Time.IsZero req.Timestamp then clk.stamp else req.Timestamp),
          CheckOut := none, Date := Time.Truncate clk.today (24 * Hour),
          Status := AttendanceStatusPresent, WorkMode := req.WorkMode,
          Location := req.Location, DeviceInfo := req.DeviceInfo } = .ok (a, s1) →
      repo.UpdateQRCode s1
        { q with
          LastUsed := some (if Time.IsZero req.Timestamp then clk.stamp else req.Timestamp) }
        = .error e →
      CheckIn repo clk req s = (.ok a, s1)) ∧
    (∀ (b : Backend) (clk : Clock) (req : CheckInRequest) (s s1 : Store) (a : Attendance)
        (e : Error),
      b.fault .UpdateQRCode = some e →
      CheckIn (memRepo b) clk req s = (.ok a, s1) →
      a ∈ s1.attendances ∧ s1.attendances = s.attendances ++ [a] ∧
      s1.qrCodes = s.qrCodes) := by
  refine ⟨?_, ?_⟩
  · intro σ repo clk req s s1 q a e hv hlook hc hu
    have hp := ValidateQRCode_eq_of_ok repo _ _ s q hv
    have hcond : (match repo.GetAttendanceByDate s q.EmployeeID
        (Time.Truncate clk.today (24 * Hour)) with
        | .ok attendance => attendance.CheckIn.isSome
        | .error _ => false) = false := by
      cases hl : repo.GetAttendanceByDate s q.EmployeeID
          (Time.Truncate clk.today (24 * Hour)) with
      | error err => rfl
      | ok r => simp [hlook r hl]
    simp only [CheckIn, hp, hcond, hc, hu]
    simp
  · intro b clk req s s1 a e hb h
    have hs1 : ∀ (s0 : Store) (q : QRCode), (memRepo b).UpdateQRCode s0 q = .error e := by
      intro s0 q
      simp [memRepo, hb]
    obtain ⟨q, hv, hlook, ha, -, hatt, -, -⟩ := CheckIn_ok b clk req s s1 a h
    refine ⟨by rw [hatt]; simp, hatt, ?_⟩
    have hp := ValidateQRCode_eq_of_ok (memRepo b) _ _ s q hv
    simp only [CheckIn, hp] at h
    generalize (if Time.IsZero req.Timestamp = true then clk.stamp else req.Timestamp) = eff
      at h
    split_ifs at h with hin
    · simp at h
    revert h
    cases hc : (memRepo b).CreateAttendance s
        { ID := 0, CreatedAt := 0, UpdatedAt := 0, OrganizationID := q.OrganizationID,
          EmployeeID := q.EmployeeID, CheckIn := some eff, CheckOut := none,
          Date := Time.Truncate clk.today (24 * Hour), Status := AttendanceStatusPresent,
          WorkMode := req.WorkMode, Location := req.Location,
          DeviceInfo := req.DeviceInfo } with
    | error err => intro h; simp at h
    | ok p =>
      obtain ⟨row, s2⟩ := p
      obtain ⟨-, -, hs2⟩ := memRepo_CreateAttendance_ok b s s2 _ row hc
      dsimp only
      rw [hs1]
      intro h
      simp only [Prod.mk.injEq] at h
      rw [← h.2, hs2]

/-- Witness for C13: with the last-used update failing, `sampleCheckIn` on
`sampleStore` still returns `sampleAttendance`, which is stored, and the QR
code row keeps its last-used unset. -/
theorem CheckIn_swallows_update_failure_witness :
    CheckIn (memRepo updateFailing) sampleClock sampleCheckIn sampleStore
      = (.ok sampleAttendance, { sampleStore with attendances := [sampleAttendance] }) ∧
    sampleAttendance ∈
      ({ sampleStore with attendances := [sampleAttendance] } : Store).attendances :=
  ⟨CheckIn_swallows_update_failure.1 Store (memRepo updateFailing) sampleClock sampleCheckIn
     sampleStore { sampleStore with attendances := [sampleAttendance] } sampleQR
     sampleAttendance (.Storage "timeout") (by decide)
     (by
       intro r hr
       have h0 : (memRepo updateFailing).GetAttendanceByDate sampleStore sampleQR.EmployeeID
           (Time.Truncate sampleClock.today (24 * Hour)) = .error .RecordNotFound := by
         decide
       rw [h0] at hr
       cases hr)
     (by decide) (by decide),
   (CheckIn_swallows_update_failure.2 updateFailing sampleClock sampleCheckIn sampleStore
     { sampleStore with attendances := [sampleAttendance] } sampleAttendance
     (.Storage "timeout") rfl (by decide)).1⟩

/-- C14: on every repository, once `CheckOut` has stored the check-out on the
attendance record, a failure of the last-used update of the QR code is
returned: `CheckOut` fails with that error, returns no attendance record and
leaves the store as the attendance update left it.  On the store, when
`CheckOut` succeeds, the row found for the code has its last-used equal to
the effective check-out timestamp and the code, active flag, expiry,
organization and employee of the validated record. -/
theorem CheckOut_surfaces_update_failure :
    (∀ (σ : Type) (repo : TimeRepository σ) (clk : Clock) (req : CheckOutRequest) (s s1 : σ)
        (q : QRCode) (a : Attendance) (e : Error),
      (ValidateQRCode repo clk.validate req.QRCode s).1 = .ok q →
      repo.GetAttendanceByDate s q.EmployeeID (Time.Truncate clk.today (24 * Hour)) = .ok a →
      a.CheckOut = none →
      repo.UpdateAttendance s
        { a with
          CheckOut := some (if Time.IsZero req.Timestamp then clk.stamp else req.Timestamp),
          Location := req.Location, DeviceInfo := req.DeviceInfo } = .ok s1 →
      repo.UpdateQRCode s1
        { q with
          LastUsed := some (if Time.IsZero req.Timestamp then clk.stamp else req.Timestamp) }
        = .error e →
      CheckOut repo clk req s = (.error e, s1)) ∧
    (∀ (b b2 : Backend) (clk : Clock) (req : CheckOutRequest) (s s1 : Store) (q : QRCode)
        (r : Attendance),
      (ValidateQRCode (memRepo b) clk.validate req.QRCode s).1 = .ok q →
      CheckOut (memRepo b) clk req s = (.ok r, s1) →
      b2.fault .GetQRCode = none →
      ∃ q2, (memRepo b2).GetQRCode s1 req.QRCode = .ok q2 ∧
        q2.LastUsed = some (if req.Timestamp = 0 then clk.stamp else req.Timestamp) ∧
        q2.Code = q.Code ∧ q2.IsActive = q.IsActive ∧ q2.ExpiryDate = q.ExpiryDate ∧
        q2.OrganizationID = q.OrganizationID ∧ q2.EmployeeID = q.EmployeeID) := by
  refine ⟨?_, ?_⟩
  · intro σ repo clk req s s1 q a e hv hl hnone hua huq
    have hp := ValidateQRCode_eq_of_ok repo _ _ s q hv
    have hsome : a.CheckOut.isSome = false := by rw [hnone]; rfl
    simp only [CheckOut, hp, hl, hsome, hua, huq]
    simp
  · intro b b2 clk req s s1 q r hv h hb2
    rcases CheckOut_cases b clk req s s1 _ h with ⟨-, e, he⟩ | hcase
    · cases he
    obtain ⟨q0, a, r0, hv0, -, -, -, -, -, hres⟩ := hcase
    rcases hres with ⟨⟨e, he⟩, -⟩ | ⟨-, hqr⟩
    · cases he
    have hq : q0 = q := by
      rw [hv] at hv0
      simp only [Except.ok.injEq] at hv0
      exact hv0.symm
    subst hq
    have hfind := memRepo_GetQRCode_ok b s _ q0 (ValidateQRCode_ok_lookup _ _ _ s q0 hv).1
    have hp : (fun x : QRCode => decide (x.Code = req.QRCode))
        { q0 with
          LastUsed := some (if Time.IsZero req.Timestamp then clk.stamp else req.Timestamp) }
        = true := by
      have := List.find?_some hfind
      simpa using this
    have hrep := find?_map_replace (fun x : QRCode => decide (x.Code = req.QRCode))
      (fun x : QRCode => x.ID) s.qrCodes q0
      { q0 with
        LastUsed := some (if Time.IsZero req.Timestamp then clk.stamp else req.Timestamp) }
      hfind hp rfl
    beta_reduce at hrep
    have hid : ({ q0 with
        LastUsed := some (if Time.IsZero req.Timestamp then clk.stamp else req.Timestamp) }
        : QRCode).ID = q0.ID := rfl
    rw [hid, ← hqr] at hrep
    refine ⟨_, memRepo_GetQRCode_found b2 s1 req.QRCode _ hb2 hrep, ?_, rfl, rfl, rfl, rfl, rfl⟩
    by_cases hz : req.Timestamp = 0 <;> simp [Time.IsZero, hz]

/-- Witness for C14: with the last-used update failing, `sampleCheckOut` on
`checkedInStore` fails with the storage error after the attendance row was
updated; with a reliable backend it succeeds and the QR code row gets
last-used 60. -/
theorem CheckOut_surfaces_update_failure_witness :
    CheckOut (memRepo updateFailing) laterClock sampleCheckOut checkedInStore
      = (.error (.Storage "timeout"),
         { checkedInStore with attendances := [sampleCheckedOut] }) ∧
    ∃ q2, (memRepo sampleBackend).GetQRCode checkedOutStore "abc" = .ok q2 ∧
      q2.LastUsed = some 60 :=
  ⟨CheckOut_surfaces_update_failure.1 Store (memRepo updateFailing) laterClock sampleCheckOut
     checkedInStore { checkedInStore with attendances := [sampleCheckedOut] }
     { sampleQR with LastUsed := some 50 } sampleAttendance (.Storage "timeout")
     (by decide) (by decide) (by decide) (by decide) (by decide),
   (CheckOut_surfaces_update_failure.2 sampleBackend sampleBackend laterClock sampleCheckOut
     checkedInStore checkedOutStore { sampleQR with LastUsed := some 50 } sampleCheckedOut
     (by decide) (by decide) rfl).imp (fun _ h => ⟨h.1, h.2.1⟩)⟩

/-! ## Timesheets: the store operations -/

/-- A successful `CreateTimesheet` on the store: the row is the record with
its `Base` columns filled in and an empty status replaced by `pending`, no
earlier row has its `ID`, and the row is appended. -/
theorem memRepo_CreateTimesheet_ok (b : Backend) (s s1 : Store) (t row : Timesheet)
    (h : (memRepo b).CreateTimesheet s t = .ok (row, s1)) :
    row = { t with
            toBase := Base.inserted b t.toBase,
            Status := if t.Status = "" then TimesheetStatusPending else t.Status } ∧
    (∀ r ∈ s.timesheets, r.ID ≠ row.ID) ∧
    s1 = { s with timesheets := s.timesheets ++ [row] } := by
  simp only [memRepo] at h
  cases hf : b.fault .CreateTimesheet with
  | some err => simp [hf] at h
  | none =>
    simp only [hf] at h
    by_cases hany : (s.timesheets.any fun r =>
        decide (r.ID = (Base.inserted b t.toBase).ID)) = true
    · rw [if_pos hany] at h
      cases h
    · rw [if_neg hany] at h
      simp only [Except.ok.injEq, Prod.mk.injEq] at h
      obtain ⟨hrow, hs⟩ := h
      subst hrow
      refine ⟨rfl, ?_, hs.symm⟩
      intro r hr
      simp only [List.any_eq_true, decide_eq_true_eq, not_exists, not_and] at hany
      exact hany r hr

/-- The timesheet lookup of the store, when the backend does not fail it:
the first row with the `ID`, or `RecordNotFound`. -/
theorem memRepo_GetTimesheet_answered (b : Backend) (s : Store) (id : UUID)
    (hb : b.fault .GetTimesheet = none) :
    (memRepo b).GetTimesheet s id =
      match s.timesheets.find? (fun r => decide (r.ID = id)) with
      | some r => .ok r
      | none => .error .RecordNotFound := by
  simp [memRepo, hb]

/-- A record returned by the timesheet lookup of the store is the first row
with the `ID`. -/
theorem memRepo_GetTimesheet_ok (b : Backend) (s : Store) (id : UUID) (t : Timesheet)
    (h : (memRepo b).GetTimesheet s id = .ok t) :
    s.timesheets.find? (fun r => decide (r.ID = id)) = some t := by
  simp only [memRepo] at h
  cases hf : b.fault .GetTimesheet with
  | some err => simp [hf] at h
  | none =>
    rw [hf] at h
    dsimp only at h
    cases hfind : s.timesheets.find? (fun r => decide (r.ID = id)) with
    | none => rw [hfind] at h; cases h
    | some r =>
      rw [hfind] at h
      simp only [Except.ok.injEq] at h
      rw [h]

/-- The timesheet lookup of the store fails when no row has the `ID`, with
`RecordNotFound` when the backend does not fail it. -/
theorem memRepo_GetTimesheet_absent (b : Backend) (s : Store) (id : UUID)
    (h : ∀ r ∈ s.timesheets, r.ID ≠ id) :
    (∃ e, (memRepo b).GetTimesheet s id = .error e) ∧
    (b.fault .GetTimesheet = none → (memRepo b).GetTimesheet s id = .error .RecordNotFound) := by
  have hfind : s.timesheets.find? (fun r => decide (r.ID = id)) = none := by
    rw [List.find?_eq_none]
    intro r hr
    simpa using h r hr
  refine ⟨?_, ?_⟩
  · cases hf : b.fault .GetTimesheet with
    | some err => exact ⟨err, by simp [memRepo, hf]⟩
    | none => exact ⟨.RecordNotFound, by simp [memRepo, hf, hfind]⟩
  · intro hb
    rw [memRepo_GetTimesheet_answered b s id hb, hfind]

/-! ## Timesheets: create and update -/

/-- What a successful `CreateTimesheet` on the store did: the returned
record is the built record with its `Base` columns filled in and the status
`pending`, appended to the table under a fresh `ID`. -/
theorem CreateTimesheet_ok (b : Backend) (now : Time) (orgID employeeID : UUID)
    (req : CreateTimesheetRequest) (s s1 : Store) (t : Timesheet)
    (h : CreateTimesheet (memRepo b) now orgID employeeID req s = (.ok t, s1)) :
    t = { toBase := Base.inserted b { ID := 0, CreatedAt := 0, UpdatedAt := 0 },
          OrganizationID := orgID, EmployeeID := employeeID, ProjectID := req.ProjectID,
          TaskID := req.TaskID, Description := req.Description,
          Date := Time.Truncate now (24 * Hour), Hours := req.Hours,
          Status := TimesheetStatusPending, Notes := "", ApprovedBy := none,
          ApprovedAt := none } ∧
    (∀ r ∈ s.timesheets, r.ID ≠ t.ID) ∧
    s1 = { s with timesheets := s.timesheets ++ [t] } := by
  simp only [CreateTimesheet] at h
  cases hc : (memRepo b).CreateTimesheet s
      { ID := 0, CreatedAt := 0, UpdatedAt := 0, OrganizationID := orgID,
        EmployeeID := employeeID, ProjectID := req.ProjectID, TaskID := req.TaskID,
        Description := req.Description, Date := Time.Truncate now (24 * Hour),
        Hours := req.Hours, Status := "", Notes := "", ApprovedBy := none,
        ApprovedAt := none } with
  | error e => simp [hc] at h
  | ok p =>
    obtain ⟨row, s2⟩ := p
    simp only [hc, Prod.mk.injEq, Except.ok.injEq] at h
    obtain ⟨ht, hs⟩ := h
    subst ht hs
    obtain ⟨hrow, hfresh, hst⟩ := memRepo_CreateTimesheet_ok b s s2 _ row hc
    refine ⟨?_, hfresh, hst⟩
    rw [hrow]
    simp

/-- When the backend does not fail the insert and draws an `ID` no row has,
`CreateTimesheet` on the store succeeds, whatever the request holds. -/
theorem CreateTimesheet_succeeds (b : Backend) (now : Time) (orgID employeeID : UUID)
    (req : CreateTimesheetRequest) (s : Store)
    (hb : b.fault .CreateTimesheet = none) (hfresh : ∀ r ∈ s.timesheets, r.ID ≠ b.newID) :
    ∃ t, CreateTimesheet (memRepo b) now orgID employeeID req s
      = (.ok t, { s with timesheets := s.timesheets ++ [t] }) := by
  have hex : ¬ ∃ x ∈ s.timesheets, x.ID = b.newID := by
    rintro ⟨x, hx, hid⟩
    exact hfresh x hx hid
  simp [CreateTimesheet, memRepo, hb, Base.inserted, hex]

/-- Counterexample for C15: over `timeRepository`, `CreateTimesheet` accepts
requests for 24.5 hours, for 0 hours and for -3 hours on the empty store and
stores a row with those hours. -/
theorem hours_out_of_range_accepted :
    CreateTimesheet (timeRepository timesheetBackend) 50 3 7
        { sampleTimesheetRequest with Hours := 49 / 2 } Store.empty
      = (.ok { sampleTimesheet with Hours := 49 / 2 },
         { Store.empty with timesheets := [{ sampleTimesheet with Hours := 49 / 2 }] }) ∧
    ¬ ((49 / 2 : Rat) ≤ 24) ∧
    CreateTimesheet (timeRepository timesheetBackend) 50 3 7
        { sampleTimesheetRequest with Hours := 0 } Store.empty
      = (.ok { sampleTimesheet with Hours := 0 },
         { Store.empty with timesheets := [{ sampleTimesheet with Hours := 0 }] }) ∧
    CreateTimesheet (timeRepository timesheetBackend) 50 3 7
        { sampleTimesheetRequest with Hours := -3 } Store.empty
      = (.ok { sampleTimesheet with Hours := -3 },
         { Store.empty with timesheets := [{ sampleTimesheet with Hours := -3 }] }) ∧
    ¬ ((1 / 10 : Rat) ≤ 0) ∧ ¬ ((1 / 10 : Rat) ≤ -3) := by
  refine ⟨rfl, by norm_num, rfl, rfl, by norm_num, by norm_num⟩

/-- C15 (amended): the engine operation `CreateTimesheet` does not check the
hours of the request.  For every request, whatever its hours,
`CreateTimesheet` over `timeRepository` succeeds when the insert is not
failed and the `ID` drawn is fresh, and the timesheet it returns and stores
has exactly the hours of the request. -/
theorem CreateTimesheet_keeps_hours (b : Backend) (now : Time) (orgID employeeID : UUID)
    (req : CreateTimesheetRequest) (s : Store)
    (hb : b.fault .CreateTimesheet = none) (hfresh : ∀ r ∈ s.timesheets, r.ID ≠ b.newID) :
    ∃ t, CreateTimesheet (timeRepository b) now orgID employeeID req s
        = (.ok t, { s with timesheets := s.timesheets ++ [t] }) ∧
      t.Hours = req.Hours := by
  rw [timeRepository_eq]
  obtain ⟨t, ht⟩ := CreateTimesheet_succeeds b.gorm now orgID employeeID req s hb hfresh
  refine ⟨t, ht, ?_⟩
  rw [(CreateTimesheet_ok b.gorm now orgID employeeID req s _ t ht).1]

/-- Witness for C15 (amended): a request for 30 hours is created on the
empty store and keeps its hours. -/
theorem CreateTimesheet_keeps_hours_witness :
    ∃ t, CreateTimesheet (timeRepository timesheetBackend) 50 3 7
        { sampleTimesheetRequest with Hours := 30 } Store.empty
        = (.ok t, { Store.empty with timesheets := Store.empty.timesheets ++ [t] }) ∧
      t.Hours = 30 :=
  CreateTimesheet_keeps_hours timesheetBackend 50 3 7
    { sampleTimesheetRequest with Hours := 30 } Store.empty rfl
    (fun r hr => absurd hr (List.not_mem_nil r))

/-- C16: a successful `CreateTimesheet` on the store returns and stores one
new row whose status is "pending", whose approver and approval timestamp
are unset, and whose organization, employee, project, task, description and
hours are the arguments and the fields of the request.  (The struct literal
of the service leaves the status empty; the status `pending` is the default
the store gives on insert.) -/
theorem CreateTimesheet_pending (b : Backend) (now : Time) (orgID employeeID : UUID)
    (req : CreateTimesheetRequest) (s s1 : Store) (t : Timesheet)
    (h : CreateTimesheet (memRepo b) now orgID employeeID req s = (.ok t, s1)) :
    t.Status = "pending" ∧ t.ApprovedBy = none ∧ t.ApprovedAt = none ∧
    t.OrganizationID = orgID ∧ t.EmployeeID = employeeID ∧
    t.ProjectID = req.ProjectID ∧ t.TaskID = req.TaskID ∧
    t.Description = req.Description ∧ t.Hours = req.Hours ∧
    s1.timesheets = s.timesheets ++ [t] ∧ s1.attendances = s.attendances ∧
    s1.qrCodes = s.qrCodes := by
  obtain ⟨ht, -, hs1⟩ := CreateTimesheet_ok b now orgID employeeID req s s1 t h
  refine ⟨by rw [ht]; rfl, by rw [ht], by rw [ht], by rw [ht], by rw [ht], by rw [ht],
    by rw [ht], by rw [ht], by rw [ht], by rw [hs1], by rw [hs1], by rw [hs1]⟩

/-- Witness for C16: `sampleTimesheetRequest` for employee 7 of organization
3 creates `sampleTimesheet` on the empty store. -/
theorem CreateTimesheet_pending_witness :
    CreateTimesheet (memRepo timesheetBackend) 50 3 7 sampleTimesheetRequest Store.empty
      = (.ok sampleTimesheet, { Store.empty with timesheets := [sampleTimesheet] }) ∧
    sampleTimesheet.Status = "pending" ∧ sampleTimesheet.Hours = 17 / 2 :=
  ⟨rfl,
   (CreateTimesheet_pending timesheetBackend 50 3 7 sampleTimesheetRequest Store.empty
     { Store.empty with timesheets := [sampleTimesheet] } sampleTimesheet rfl).1,
   (CreateTimesheet_pending timesheetBackend 50 3 7 sampleTimesheetRequest Store.empty
     { Store.empty with timesheets := [sampleTimesheet] } sampleTimesheet rfl).2.2.2.2.2.2.2.2.1⟩

/-- C17: `CreateTimesheet` and `UpdateTimesheet` do not read the date field
of the request: on every repository, two requests that differ only in their
date string give the same result and the same store.  `CreateTimesheet`
over `timeRepository` succeeds when the insert is not failed and the `ID`
drawn is fresh, and the timesheet it returns and stores is dated the clock
reading rounded down to the day.  On every repository, when the lookup
returns a row and the repository accepts the update of that row with the
fields of the request and today's date, `UpdateTimesheet` returns that
record, dated the clock reading rounded down to the day; and every record an
`UpdateTimesheet` returns is dated so.  (Over `timeRepository` the update is
never accepted.) -/
theorem timesheet_date_is_today :
    (∀ (σ : Type) (repo : TimeRepository σ) (now : Time) (orgID employeeID id : UUID)
        (req : CreateTimesheetRequest) (date : String) (s : σ),
      CreateTimesheet repo now orgID employeeID { req with Date := date } s
        = CreateTimesheet repo now orgID employeeID req s ∧
      UpdateTimesheet repo now id { req with Date := date } s
        = UpdateTimesheet repo now id req s) ∧
    (∀ (b : Backend) (now : Time) (orgID employeeID : UUID) (req : CreateTimesheetRequest)
        (s : Store),
      b.fault .CreateTimesheet = none → (∀ r ∈ s.timesheets, r.ID ≠ b.newID) →
      ∃ t, CreateTimesheet (timeRepository b) now orgID employeeID req s
          = (.ok t, { s with timesheets := s.timesheets ++ [t] }) ∧
        t.Date = now - now % 86400000000000) ∧
    (∀ (σ : Type) (repo : TimeRepository σ) (now : Time) (id : UUID)
        (req : CreateTimesheetRequest) (s s1 : σ) (t0 : Timesheet),
      repo.GetTimesheet s id = .ok t0 →
      repo.UpdateTimesheet s
          { t0 with
            ProjectID := req.ProjectID, TaskID := req.TaskID,
            Description := req.Description, Date := Time.Truncate now (24 * Hour),
            Hours := req.Hours } = .ok s1 →
      ∃ t, UpdateTimesheet repo now id req s = (.ok t, s1) ∧
        t.Date = now - now % 86400000000000 ∧ t.ID = t0.ID) ∧
    (∀ (σ : Type) (repo : TimeRepository σ) (now : Time) (id : UUID)
        (req : CreateTimesheetRequest) (s s1 : σ) (t : Timesheet),
      UpdateTimesheet repo now id req s = (.ok t, s1) →
      t.Date = now - now % 86400000000000) := by
  refine ⟨?_, ?_, ?_, ?_⟩
  · intro σ repo now orgID employeeID id req date s
    exact ⟨rfl, rfl⟩
  · intro b now orgID employeeID req s hb hfresh
    rw [timeRepository_eq]
    obtain ⟨t, ht⟩ := CreateTimesheet_succeeds b.gorm now orgID employeeID req s hb hfresh
    refine ⟨t, ht, ?_⟩
    rw [(CreateTimesheet_ok b.gorm now orgID employeeID req s _ t ht).1]
    exact Truncate_day now
  · intro σ repo now id req s s1 t0 hg hu
    refine ⟨{ t0 with
              ProjectID := req.ProjectID, TaskID := req.TaskID,
              Description := req.Description, Date := Time.Truncate now (24 * Hour),
              Hours := req.Hours }, ?_, Truncate_day now, rfl⟩
    simp only [UpdateTimesheet, hg, hu]
  · intro σ repo now id req s s1 t h
    simp only [UpdateTimesheet] at h
    cases hg : repo.GetTimesheet s id with
    | error e => simp [hg] at h
    | ok t0 =>
      simp only [hg] at h
      revert h
      cases repo.UpdateTimesheet s
          { t0 with
            ProjectID := req.ProjectID, TaskID := req.TaskID,
            Description := req.Description, Date := Time.Truncate now (24 * Hour),
            Hours := req.Hours } with
      | error e => intro h; simp at h
      | ok s2 =>
        intro h
        simp only [Prod.mk.injEq, Except.ok.injEq] at h
        rw [← h.1]
        exact Truncate_day now

/-- Witness for C17: at instant 86400000000050 (day 1) a request dated
"2024-01-02" and the same request dated "1999-12-31" both create a row dated
86400000000000 over `timeRepository`; and on a repository that accepts the
update (`memRepo timesheetBackend`), updating row 31 of `timesheetStore` at
that instant returns a record dated 86400000000000, whatever the date of the
request. -/
theorem timesheet_date_is_today_witness :
    CreateTimesheet (timeRepository timesheetBackend) 86400000000050 3 7
        { sampleTimesheetRequest with Date := "1999-12-31" } Store.empty
      = CreateTimesheet (timeRepository timesheetBackend) 86400000000050 3 7
        sampleTimesheetRequest Store.empty ∧
    (∃ t, CreateTimesheet (timeRepository timesheetBackend) 86400000000050 3 7
        sampleTimesheetRequest Store.empty
          = (.ok t, { Store.empty with timesheets := Store.empty.timesheets ++ [t] }) ∧
      t.Date = 86400000000050 - 86400000000050 % 86400000000000) ∧
    (∃ t, UpdateTimesheet (memRepo timesheetBackend) 86400000000050 31
        { sampleTimesheetRequest with Date := "1999-12-31" } timesheetStore
          = (.ok t, { timesheetStore with
                      timesheets :=
                        [otherTimesheet, { sampleTimesheet with Date := 86400000000000 }] }) ∧
      t.Date = 86400000000050 - 86400000000050 % 86400000000000 ∧
      t.ID = sampleTimesheet.ID) :=
  ⟨(timesheet_date_is_today.1 Store (timeRepository timesheetBackend) 86400000000050 3 7 0
      sampleTimesheetRequest "1999-12-31" Store.empty).1,
   timesheet_date_is_today.2.1 timesheetBackend 86400000000050 3 7 sampleTimesheetRequest
      Store.empty rfl (fun r hr => absurd hr (List.not_mem_nil r)),
   timesheet_date_is_today.2.2.1 Store (memRepo timesheetBackend) 86400000000050 31
      { sampleTimesheetRequest with Date := "1999-12-31" } timesheetStore _ sampleTimesheet
      rfl rfl⟩

/-! ## Timesheets: update, approve and reject over `timeRepository` -/

/-- Over `timeRepository` every `UpdateTimesheet` fails and leaves the store
as it was: with the error of the lookup, or with `ErrMissingWhereClause`. -/
theorem UpdateTimesheet_refused (b : Backend) (now : Time) (id : UUID)
    (req : CreateTimesheetRequest) (s : Store) :
    ∃ e, UpdateTimesheet (timeRepository b) now id req s = (.error e, s) := by
  cases hg : (timeRepository b).GetTimesheet s id with
  | error e => exact ⟨e, by simp only [UpdateTimesheet, hg]⟩
  | ok t0 => exact ⟨ErrMissingWhereClause, by simp only [UpdateTimesheet, hg]; rfl⟩

/-- Over `timeRepository` every `ApproveTimesheet` fails and leaves the
store as it was. -/
theorem ApproveTimesheet_refused (b : Backend) (now : Time) (id approverID : UUID)
    (s : Store) :
    ∃ e, ApproveTimesheet (timeRepository b) now id approverID s = (.error e, s) := by
  cases hg : (timeRepository b).GetTimesheet s id with
  | error e => exact ⟨e, by simp only [ApproveTimesheet, hg]⟩
  | ok t0 => exact ⟨ErrMissingWhereClause, by simp only [ApproveTimesheet, hg]; rfl⟩

/-- Over `timeRepository` every `RejectTimesheet` fails and leaves the store
as it was. -/
theorem RejectTimesheet_refused (b : Backend) (now : Time) (id approverID : UUID)
    (reason : String) (s : Store) :
    ∃ e, RejectTimesheet (timeRepository b) now id approverID reason s = (.error e, s) := by
  cases hg : (timeRepository b).GetTimesheet s id with
  | error e => exact ⟨e, by simp only [RejectTimesheet, hg]⟩
  | ok t0 => exact ⟨ErrMissingWhereClause, by simp only [RejectTimesheet, hg]; rfl⟩

/-- C18, on the code: no `UpdateTimesheet` replaces anything.  For every
backend, clock reading, id, request and store, `UpdateTimesheet` over
`timeRepository` fails and leaves the store as it was.  In particular, on
`timesheetStore`, where the lookup of row 31 returns `sampleTimesheet`, an
update of row 31 at instant 50 fails with "WHERE conditions required", the
error of the repository's `UpdateTimesheet`, and the row keeps its
description and hours; an update of the unknown row 99 fails with
`RecordNotFound`, as the claim says. -/
theorem UpdateTimesheet_never_persists :
    (∀ (b : Backend) (now : Time) (id : UUID) (req : CreateTimesheetRequest) (s : Store),
      ∃ e, UpdateTimesheet (timeRepository b) now id req s = (.error e, s)) ∧
    (timeRepository timesheetBackend).GetTimesheet timesheetStore 31 = .ok sampleTimesheet ∧
    UpdateTimesheet (timeRepository timesheetBackend) 50 31
        { sampleTimesheetRequest with Description := "rework", Hours := 2 } timesheetStore
      = (.error (.Storage "WHERE conditions required"), timesheetStore) ∧
    UpdateTimesheet (timeRepository timesheetBackend) 50 99 sampleTimesheetRequest
        timesheetStore
      = (.error .RecordNotFound, timesheetStore) :=
  ⟨UpdateTimesheet_refused, rfl, rfl, rfl⟩

/-- C19, on the code: no `ApproveTimesheet` succeeds.  For every backend,
clock reading, id, approver and store, `ApproveTimesheet` over
`timeRepository` fails and leaves the store as it was.  In particular, after
`sampleTimesheetRequest` (8.5 hours) created `sampleTimesheet` for employee 7
on the empty store, approving it as approver 77 fails with
"WHERE conditions required" and the stored row keeps the status "pending"
and has no approver; approving the unknown row 99 fails with
`RecordNotFound`, as the claim says. -/
theorem ApproveTimesheet_never_persists :
    (∀ (b : Backend) (now : Time) (id approverID : UUID) (s : Store),
      ∃ e, ApproveTimesheet (timeRepository b) now id approverID s = (.error e, s)) ∧
    CreateTimesheet (timeRepository timesheetBackend) 50 3 7 sampleTimesheetRequest Store.empty
      = (.ok sampleTimesheet, createdStore) ∧
    ApproveTimesheet (timeRepository timesheetBackend) 60 31 77 createdStore
      = (.error (.Storage "WHERE conditions required"), createdStore) ∧
    createdStore.timesheets = [sampleTimesheet] ∧
    sampleTimesheet.Status = "pending" ∧ sampleTimesheet.ApprovedBy = none ∧
    ApproveTimesheet (timeRepository timesheetBackend) 60 99 77 createdStore
      = (.error .RecordNotFound, createdStore) :=
  ⟨ApproveTimesheet_refused, rfl, rfl, rfl, rfl, rfl, rfl⟩

/-- C20, on the code: no `RejectTimesheet` succeeds.  For every backend,
clock reading, id, approver, reason and store, `RejectTimesheet` over
`timeRepository` fails and leaves the store as it was.  In particular, on
`timesheetStore`, rejecting row 32 (pending, notes "half day") as approver 78
fails with "WHERE conditions required", with the reason "late" and with the
empty reason, and the row keeps its status and its notes. -/
theorem RejectTimesheet_never_persists :
    (∀ (b : Backend) (now : Time) (id approverID : UUID) (reason : String) (s : Store),
      ∃ e, RejectTimesheet (timeRepository b) now id approverID reason s = (.error e, s)) ∧
    (timeRepository timesheetBackend).GetTimesheet timesheetStore 32 = .ok otherTimesheet ∧
    RejectTimesheet (timeRepository timesheetBackend) 60 32 78 "late" timesheetStore
      = (.error (.Storage "WHERE conditions required"), timesheetStore) ∧
    RejectTimesheet (timeRepository timesheetBackend) 60 32 78 "" timesheetStore
      = (.error (.Storage "WHERE conditions required"), timesheetStore) ∧
    otherTimesheet.Status = "pending" ∧ otherTimesheet.Notes = "half day" :=
  ⟨RejectTimesheet_refused, rfl, rfl, rfl, rfl, rfl⟩

/-- C21, on the code: neither operation succeeds on an existing timesheet.
On `createdStore`, which holds the pending `sampleTimesheet` as
`CreateTimesheet` stored it, `ApproveTimesheet` by approver 77 fails with
"WHERE conditions required" and leaves the store as it was, and so does a
following `RejectTimesheet` by approver 78, and in the other order: the row
stays pending through both. -/
theorem approve_and_reject_both_fail :
    ApproveTimesheet (timeRepository timesheetBackend) 50 31 77 createdStore
      = (.error (.Storage "WHERE conditions required"), createdStore) ∧
    RejectTimesheet (timeRepository timesheetBackend) 60 31 78 "late"
        (ApproveTimesheet (timeRepository timesheetBackend) 50 31 77 createdStore).2
      = (.error (.Storage "WHERE conditions required"), createdStore) ∧
    RejectTimesheet (timeRepository timesheetBackend) 50 31 78 "late" createdStore
      = (.error (.Storage "WHERE conditions required"), createdStore) ∧
    ApproveTimesheet (timeRepository timesheetBackend) 60 31 77
        (RejectTimesheet (timeRepository timesheetBackend) 50 31 78 "late" createdStore).2
      = (.error (.Storage "WHERE conditions required"), createdStore) ∧
    (timeRepository timesheetBackend).GetTimesheet createdStore 31 = .ok sampleTimesheet ∧
    sampleTimesheet.Status = "pending" :=
  ⟨rfl, rfl, rfl, rfl, rfl, rfl⟩

/-! ## Attendance: lookup faults and the failing paths of check-out -/

/-- Evaluation for C24: on `checkedInStore`, where employee 7 has a row for
day 0, a `CheckOut` whose attendance lookup fails with the storage error
"timeout" still fails with "no check-in record found for today", the same
failure as on `sampleStore`, where the lookup reports `RecordNotFound`; and
a `ValidateQRCode` whose code lookup fails with a storage error reports
"invalid QR code" for the stored, active, unexpired code "abc". -/
theorem lookup_fault_reported_as_absence :
    (memRepo lookupFailing).GetAttendanceByDate checkedInStore 7 0
      = .error (.Storage "timeout") ∧
    CheckOut (memRepo lookupFailing) laterClock sampleCheckOut checkedInStore
      = (.error (.New "no check-in record found for today"), checkedInStore) ∧
    (memRepo sampleBackend).GetAttendanceByDate sampleStore 7 0 = .error .RecordNotFound ∧
    CheckOut (memRepo sampleBackend) laterClock sampleCheckOut sampleStore
      = (.error (.New "no check-in record found for today"), sampleStore) ∧
    (memRepo codeLookupFailing).GetQRCode sampleStore "abc" = .error (.Storage "timeout") ∧
    ValidateQRCode (memRepo codeLookupFailing) 60 "abc" sampleStore
      = (.error (.New "invalid QR code"), sampleStore) ∧
    ValidateQRCode (memRepo sampleBackend) 60 "abc" sampleStore = (.ok sampleQR, sampleStore) := by
  decide

/-- The decision of `ValidateOrganizationAccess` does not depend on the
organization id in the request path: the middleware never reads it. -/
theorem ValidateOrganizationAccess_path_unused
    (ValidateToken : String → Except Error UserResponse)
    (GetOrganization : String → String → Except Error OrganizationResponse)
    (c : AccessRequest) (path : String) :
    ValidateOrganizationAccess ValidateToken GetOrganization
        { c with organization_id := path } =
      ValidateOrganizationAccess ValidateToken GetOrganization c := by
  rfl

/-- The requests `ValidateOrganizationAccess` passes on are exactly those
with a non-empty `Authorization` header whose token validates and whose
user's organization is found and active; the keys set are those of the
token's user. -/
theorem ValidateOrganizationAccess_next_iff
    (ValidateToken : String → Except Error UserResponse)
    (GetOrganization : String → String → Except Error OrganizationResponse)
    (c : AccessRequest) (keys : List (String × String)) :
    ValidateOrganizationAccess ValidateToken GetOrganization c = .Next keys ↔
      c.Authorization ≠ "" ∧
      ∃ user org, ValidateToken c.Authorization = .ok user ∧
        GetOrganization c.Authorization user.OrganizationID = .ok org ∧
        org.Status = "active" ∧
        keys = [("user_id", user.UserID), ("organization_id", user.OrganizationID),
                ("email", user.Email), ("role", user.Role)] := by
  unfold ValidateOrganizationAccess
  by_cases ht : c.Authorization = ""
  · simp [ht]
  · cases hv : ValidateToken c.Authorization with
    | error e => simp [ht, hv]
    | ok user =>
      cases hg : GetOrganization c.Authorization user.OrganizationID with
      | error e => simp [ht, hv, hg]
      | ok org =>
        by_cases hs : org.Status = "active"
        · simp [ht, hv, hg, hs, eq_comm]
        · simp [ht, hv, hg, hs]

/-- The sibling middleware `RequireOrganizationAccess` passes a request on
only if the token validates and its organization is the one in the route
parameter `org_id`. -/
theorem RequireOrganizationAccess_next_iff
    (ValidateToken : String → Except Error UserResponse) (c : AccessRequest)
    (keys : List (String × String)) :
    RequireOrganizationAccess ValidateToken c = .Next keys ↔
      keys = [] ∧ ∃ user, ValidateToken c.Authorization = .ok user ∧
        user.OrganizationID = c.org_id := by
  unfold RequireOrganizationAccess VerifyOrganizationAccess
  cases hv : ValidateToken c.Authorization with
  | error e => simp [hv]
  | ok user =>
    by_cases ho : user.OrganizationID = c.org_id
    · simp [hv, ho, eq_comm]
    · simp [hv, ho]

/-- C22, evaluated on the code: `ValidateOrganizationAccess` passes on a
request on a path of organization `org-b` that carries the token of a user
of the active organization `org-a`, with the context keys of `org-a`; the
sibling `RequireOrganizationAccess`, which compares the organization of the
token with the route parameter `org_id`, aborts the same request with status
403, and `VerifyOrganizationAccess`, the comparison it makes, refuses the
token for `org-b`. -/
theorem token_of_other_organization_passes :
    sampleValidateToken crossOrgRequest.Authorization =
        .ok { UserID := "u1", OrganizationID := "org-a", Email := "a@example.com",
              Role := "employee" } ∧
      crossOrgRequest.organization_id = "org-b" ∧
      ValidateOrganizationAccess sampleValidateToken sampleGetOrganization crossOrgRequest =
        .Next [("user_id", "u1"), ("organization_id", "org-a"),
               ("email", "a@example.com"), ("role", "employee")] ∧
      RequireOrganizationAccess sampleValidateToken crossOrgRequest =
        .Abort 403 "no access to this organization" ∧
      VerifyOrganizationAccess sampleValidateToken crossOrgRequest.Authorization
          crossOrgRequest.organization_id =
        .error (.New "user does not have access to this organization") := by
  decide

/-! ## Error responses -/

/-- When the chain pushed no error to `c.Errors`, `ErrorHandler` leaves the
response as the handler wrote it. -/
theorem ErrorHandler_no_errors (c : Context) (h : c.Errors = []) : ErrorHandler c = c := by
  unfold ErrorHandler
  rw [h]
  rfl

/-- A context built by `Context.JSON` passes through `ErrorHandler`
unchanged. -/
theorem ErrorHandler_JSON (status : Nat) (body : Body) :
    ErrorHandler (Context.JSON status body) = Context.JSON status body :=
  ErrorHandler_no_errors _ rfl

/-- A storage error pushed to `c.Errors` would be answered by `ErrorHandler`
with the structured internal error, whatever its text. -/
theorem ErrorHandler_storage_error (written : List Response) (text : String) :
    ErrorHandler { written := written, Errors := [.Plain (.Storage text)] } =
      { written := written ++
          [{ status := 500,
             body := .App { Code := "INTERNAL_SERVER_ERROR",
                            Message := "An unexpected error occurred",
                            Details := none, HTTPStatus := 500 } }],
        Errors := [.Plain (.Storage text)] } := by
  rfl

/-- When the timesheet insert fails, the response of
`TimeHandler.CreateTimesheet` behind `ErrorHandler` is status 500 with the
body `error: text`, where the text is that of the store's error. -/
theorem CreateTimesheet_handler_store_error {σ : Type} (repo : TimeRepository σ)
    (now : Time) (orgID employeeID : UUID) (req : CreateTimesheetRequest) (s : σ)
    (e : Error)
    (h : (Comin.CreateTimesheet repo now orgID employeeID req s).1 = .error e) :
    ErrorHandler
        (TimeHandler.CreateTimesheet repo now (some orgID) (some employeeID) (.ok req) s).1 =
      Context.JSON 500 (.H e.Error) := by
  unfold TimeHandler.CreateTimesheet
  dsimp only
  rcases hc : Comin.CreateTimesheet repo now orgID employeeID req s with ⟨r, s1⟩
  rw [hc] at h
  dsimp only at h
  subst h
  exact ErrorHandler_JSON _ _

/-- When `GetTimesheet` fails, the response of `TimeHandler.GetTimesheet`
behind `ErrorHandler` is status 500 with the text of the error in the
body. -/
theorem GetTimesheet_handler_store_error {σ : Type} (repo : TimeRepository σ)
    (id : UUID) (s : σ) (e : Error)
    (h : (Comin.GetTimesheet repo id s).1 = .error e) :
    ErrorHandler (TimeHandler.GetTimesheet repo (some id) s).1 =
      Context.JSON 500 (.H e.Error) := by
  unfold TimeHandler.GetTimesheet
  dsimp only
  rcases hc : Comin.GetTimesheet repo id s with ⟨r, s1⟩
  rw [hc] at h
  dsimp only at h
  subst h
  exact ErrorHandler_JSON _ _

/-- When `CheckIn` fails, the response of `TimeHandler.CheckIn` behind
`ErrorHandler` is status 400 with the text of the error in the body. -/
theorem CheckIn_handler_error {σ : Type} (repo : TimeRepository σ) (clk : Clock)
    (req : CheckInRequest) (s : σ) (e : Error)
    (h : (Comin.CheckIn repo clk req s).1 = .error e) :
    ErrorHandler (TimeHandler.CheckIn repo clk (.ok req) s).1 =
      Context.JSON 400 (.H e.Error) := by
  unfold TimeHandler.CheckIn
  dsimp only
  rcases hc : Comin.CheckIn repo clk req s with ⟨r, s1⟩
  rw [hc] at h
  dsimp only at h
  subst h
  exact ErrorHandler_JSON _ _

/-- C23, evaluated on the code: with a store whose inserts and timesheet
reads fail with the text `connectionRefused`, the responses of
`TimeHandler.CreateTimesheet`, `TimeHandler.GetTimesheet` and
`TimeHandler.CheckIn` behind `ErrorHandler` carry that text as the value of
`error` in the body, with status 500, 500 and 400, and no structured error
is written; had the same error been pushed to `c.Errors`, `ErrorHandler`
would have written the structured `INTERNAL_SERVER_ERROR` instead. -/
theorem storage_error_text_in_response :
    ErrorHandler
        (TimeHandler.CreateTimesheet (memRepo databaseDown) 50 (some 3) (some 7)
          (.ok sampleTimesheetRequest) Store.empty).1 =
      { written := [{ status := 500,
                      body := .H "dial tcp 10.0.0.5:5432: connect: connection refused" }],
        Errors := [] } ∧
    ErrorHandler (TimeHandler.GetTimesheet (memRepo databaseDown) (some 31) timesheetStore).1 =
      { written := [{ status := 500,
                      body := .H "dial tcp 10.0.0.5:5432: connect: connection refused" }],
        Errors := [] } ∧
    ErrorHandler
        (TimeHandler.CheckIn (memRepo databaseDown) sampleClock (.ok sampleCheckIn)
          sampleStore).1 =
      { written := [{ status := 400,
                      body := .H "dial tcp 10.0.0.5:5432: connect: connection refused" }],
        Errors := [] } ∧
    ErrorHandler
        { written := [],
          Errors := [.Plain (.Storage "dial tcp 10.0.0.5:5432: connect: connection refused")] } =
      { written := [{ status := 500,
                      body := .App (NewInternalServerError "An unexpected error occurred") }],
        Errors := [.Plain (.Storage "dial tcp 10.0.0.5:5432: connect: connection refused")] } := by
  refine ⟨rfl, rfl, rfl, rfl⟩

end Comin
